import Mathlib

/-!
# example_cc.go : the entity smart contract

A shallow embedding of `balance-transfer/artifacts/src/github.com/example_cc/go/example_cc.go`.

* Go `string` and `[]byte` are both `String`; a nil byte slice is the empty string.
* A Go `error` is an `Option String`: `none` is nil, `some m` has `Error() = m`.
* A handler takes the stub and returns an `Outcome` (a response, or a run-time
  panic) together with the stub after the call.  The stub carries the ledger
  state and a trace of every call made to a collaborator, in call order.
* `encoding/json` and `time` are not part of the repository; the handlers take
  them as the parameter `Lib`.
* `fmt.Printf` / `fmt.Println` only write to standard output and are left out.
-/

namespace ExampleCC

/-- Go error value: `none` is nil, `some m` is an error with message `m`. -/
abbrev GoError := Option String

/-- The response envelope `sc.Response` (fields used by `shim.Success` / `shim.Error`). -/
structure Response where
  Status : Nat
  Message : String
  Payload : String
deriving DecidableEq, Repr

namespace shim

def OK : Nat := 200

def ERROR : Nat := 500

/-- Go: `shim.Success(payload)` is `pb.Response{Status: OK, Payload: payload}`. -/
def Success (payload : String) : Response := ⟨OK, "", payload⟩

/-- Go: `shim.Error(msg)` is `pb.Response{Status: ERROR, Message: msg}`. -/
def Error (msg : String) : Response := ⟨ERROR, msg, ""⟩

end shim

/-- What a Go call ends with: a returned response, or a panic unwinding out of it. -/
inductive Outcome where
  | ret (r : Response)
  | panic (msg : String)
deriving DecidableEq, Repr

/-- Go struct `User` (lines 33-42). -/
structure User where
  ObjectType : String := ""
  Id : String := ""
  FirstName : String := ""
  LastName : String := ""
  Email : String := ""
  PhoneNumber : String := ""
  UserType : String := ""
  DateOfRegistration : String := ""
deriving DecidableEq, Repr

/-- Go: `func (x User) getId() string`. -/
def User.getId (x : User) : String := x.Id

/-- Go struct `Activity` (lines 48-52). -/
structure Activity where
  ObjectType : String := ""
  Id : String := ""
  DateOfActivity : String := ""
deriving DecidableEq, Repr

/-- Go: `func (x Activity) getId() string`. -/
def Activity.getId (x : Activity) : String := x.Id

/-- The values the local `var entity interface{}` of `SaveEntity` can hold:
nil, a `*User` or an `*Activity` (with the struct pointed to). -/
inductive EntityValue where
  | nil
  | user (u : User)
  | activity (a : Activity)
deriving DecidableEq, Repr

/-- Go: `entityConv, _ := entity.(Entity)` followed by `entityConv.getId()`.
A nil `entity` fails the assertion, `entityConv` is the nil interface and the
method call on it panics: `none`. -/
def EntityValue.getId : EntityValue → Option String
  | .nil => none
  | .user u => some u.getId
  | .activity a => some a.getId

/-- Modelled from the spec: the query cursor item `(key: string, value: bytes)`
(fabric's `queryresult.KV` is not under src/). -/
structure KV where
  Key : String
  Value : String
deriving DecidableEq, Repr

/-- Modelled from the spec: `HistoryEntry = {txId, value, isDelete, timestampSeconds,
timestampNanos}` (fabric's `queryresult.KeyModification` is not under src/). -/
structure KeyModification where
  TxId : String
  Value : String
  IsDelete : Bool
  TimestampSeconds : Int
  TimestampNanos : Int
deriving DecidableEq, Repr

/-- Calls made to collaborators (the ledger stub, its cursors, `encoding/json`). -/
inductive Event where
  | PutState (key value : String)
  | GetState (key : String)
  | GetQueryResult (query : String)
  | GetHistoryForKey (key : String)
  | HasNext
  | Next
  | Close
  | Unmarshal (data : String)
  | Marshal
deriving DecidableEq, Repr

/-- A cursor: the results its successive `Next` calls give; `HasNext` is true
while some remain. -/
abbrev Cursor (α : Type) := List (Except String α)

/-- Modelled from the spec: the ledger client facade (`shim.ChaincodeStubInterface`
is not under src/).  `function`, `args`: what `GetFunctionAndParameters` returns.
`state`: the key/value store, an absent key reads as empty.  `putError`: the
error `PutState` answers with, if any.  `queryResult`, `historyForKey`: the
cursor (or opening error) for a query expression / a key.  `trace`: the calls
made so far. -/
structure Stub where
  function : String
  args : List String
  state : String → String
  putError : String → String → GoError
  queryResult : String → Except String (Cursor KV)
  historyForKey : String → Except String (Cursor KeyModification)
  trace : List Event

/-- Append one call to the trace. -/
def Stub.record (stub : Stub) (e : Event) : Stub :=
  { stub with trace := stub.trace ++ [e] }

/-- Spec facade `put(key, bytes)`: on failure the store is untouched and the
error is returned; otherwise the key now holds `value`. -/
def Stub.PutState (stub : Stub) (key value : String) : GoError × Stub :=
  match stub.putError key value with
  | some e => (some e, stub.record (.PutState key value))
  | none =>
    (none, { stub with
      state := fun k => if k = key then value else stub.state k,
      trace := stub.trace ++ [.PutState key value] })

/-- Spec facade `get(key) -> bytes`: empty when the key is absent, never an error. -/
def Stub.GetState (stub : Stub) (key : String) : (String × GoError) × Stub :=
  ((stub.state key, none), stub.record (.GetState key))

/-- Spec facade `query(expression)`. -/
def Stub.GetQueryResult (stub : Stub) (query : String) : Except String (Cursor KV) × Stub :=
  (stub.queryResult query, stub.record (.GetQueryResult query))

/-- Spec facade `history(key)`. -/
def Stub.GetHistoryForKey (stub : Stub) (key : String) :
    Except String (Cursor KeyModification) × Stub :=
  (stub.historyForKey key, stub.record (.GetHistoryForKey key))

/-- The Go standard library as the contract uses it.
`Unmarshal*`: `json.Unmarshal(data, v)` by the dynamic type of `v`; the result
is what `v` points to afterwards and the returned error.  `Marshal`:
`json.Marshal(v)`.  `UnixString sec nsec`: `time.Unix(sec, nsec).String()`. -/
structure Lib where
  UnmarshalNil : String → GoError
  UnmarshalUser : String → User → User × GoError
  UnmarshalActivity : String → Activity → Activity × GoError
  Marshal : EntityValue → String × GoError
  UnixString : Int → Int → String

/-- Go: `json.Unmarshal(data, entity)`. -/
def Lib.Unmarshal (lib : Lib) (data : String) : EntityValue → EntityValue × GoError
  | .nil => (.nil, lib.UnmarshalNil data)
  | .user u => ((.user (lib.UnmarshalUser data u).1), (lib.UnmarshalUser data u).2)
  | .activity a => ((.activity (lib.UnmarshalActivity data a).1), (lib.UnmarshalActivity data a).2)

namespace strconv

/-- Go: `strconv.FormatBool`. -/
def FormatBool (b : Bool) : String := if b then "true" else "false"

end strconv

/-! ## The handlers -/

/-- Go: `Init` (lines 71-73). -/
def Init (stub : Stub) : Outcome × Stub :=
  (.ret (shim.Success ""), stub)

/-- Go: the `switch args[0]` of `SaveEntity` (lines 106-112): `new(User)`,
`new(Activity)`, and with no default case `entity` stays nil for any other kind. -/
def newEntity (kind : String) : EntityValue :=
  if kind = "User" then .user {}
  else if kind = "Activity" then .activity {}
  else .nil

/-- Go: `SaveEntity` (lines 102-124).  `err` is assigned by `json.Unmarshal`,
then re-assigned by `json.Marshal` (line 114, `:=` with the new `aggAsBytes`);
the value `PutState` returns is dropped and line 120 tests the same `err`. -/
def SaveEntity (lib : Lib) (stub : Stub) (args : List String) : Outcome × Stub :=
  if args.length ≠ 2 then
    (.ret (shim.Error "Incorrect number of arguments. Expecting 2"), stub)
  else
    let entity : EntityValue := newEntity (args.getD 0 "")
    let stub := stub.record (.Unmarshal (args.getD 1 ""))
    let (entity, _err) := lib.Unmarshal (args.getD 1 "") entity
    let stub := stub.record .Marshal
    let (aggAsBytes, err) := lib.Marshal entity
    match err with
    | some e => (.ret (shim.Error e), stub)
    | none =>
      match entity.getId with
      | none => (.panic "runtime error: invalid memory address or nil pointer dereference", stub)
      | some id =>
        let (_, stub) := stub.PutState id aggAsBytes
        match err with
        | some e => (.ret (shim.Error e), stub)
        | none => (.ret (shim.Success ""), stub)

/-- Go: `GetEntity` (lines 129-136). -/
def GetEntity (stub : Stub) (args : List String) : Outcome × Stub :=
  if args.length ≠ 1 then
    (.ret (shim.Error "Incorrect number of arguments. Expecting 1"), stub)
  else
    let ((aggAsBytes, _), stub) := stub.GetState (args.getD 0 "")
    (.ret (shim.Success aggAsBytes), stub)

/-- The body of the `for` loop of `getQueryResultForQueryString` (lines 168-180)
after a successful `Next`: the writes to `buffer`. -/
def writeQueryElement (buffer : String) (bArrayMemberAlreadyWritten : Bool)
    (queryResponse : KV) : String :=
  let buffer := if bArrayMemberAlreadyWritten = true then buffer ++ "," else buffer
  let buffer := buffer ++ "\x7b\"Key\":"
  let buffer := buffer ++ "\""
  let buffer := buffer ++ queryResponse.Key
  let buffer := buffer ++ "\""
  let buffer := buffer ++ ", \"Record\":"
  let buffer := buffer ++ queryResponse.Value
  let buffer := buffer ++ "\x7d"
  buffer

/-- The `for resultsIterator.HasNext()` loop of `getQueryResultForQueryString`
(lines 162-181), on the results the cursor still has to give.  Returns what the
function returns if the loop ends it early (`error`), else the buffer (`ok`). -/
def queryLoop : Cursor KV → String → Bool → Stub → Except String String × Stub
  | [], buffer, _, stub => (.ok buffer, stub.record .HasNext)
  | .error err :: _, _, _, stub => (.error err, (stub.record .HasNext).record .Next)
  | .ok queryResponse :: rest, buffer, written, stub =>
    queryLoop rest (writeQueryElement buffer written queryResponse) true
      ((stub.record .HasNext).record .Next)

/-- Go: `getQueryResultForQueryString` (lines 151-185); `defer resultsIterator.Close()`
runs on each return after the cursor is open. -/
def getQueryResultForQueryString (stub : Stub) (queryString : String) :
    (String × GoError) × Stub :=
  match stub.GetQueryResult queryString with
  | (.error err, stub) => (("", some err), stub)
  | (.ok resultsIterator, stub) =>
    let buffer := ""
    let buffer := buffer ++ "["
    match queryLoop resultsIterator buffer false stub with
    | (.error err, stub) => (("", some err), stub.record .Close)
    | (.ok buffer, stub) =>
      let buffer := buffer ++ "]"
      ((buffer, none), stub.record .Close)

/-- Go: `GetEntityByQuery` (lines 142-149); the error of
`getQueryResultForQueryString` is assigned to `_`. -/
def GetEntityByQuery (stub : Stub) (args : List String) : Outcome × Stub :=
  if args.length ≠ 1 then
    (.ret (shim.Error "Incorrect number of arguments. Expecting 1"), stub)
  else
    let queryString := args.getD 0 ""
    let ((queryResults, _), stub) := getQueryResultForQueryString stub queryString
    (.ret (shim.Success queryResults), stub)

/-- The body of the `for` loop of `GetHistoryForEntity` (lines 216-244) after a
successful `Next`: the writes to `buffer`. -/
def writeHistoryElement (lib : Lib) (buffer : String) (bArrayMemberAlreadyWritten : Bool)
    (response : KeyModification) : String :=
  let buffer := if bArrayMemberAlreadyWritten = true then buffer ++ "," else buffer
  let buffer := buffer ++ "\x7b\"TxId\":"
  let buffer := buffer ++ "\""
  let buffer := buffer ++ response.TxId
  let buffer := buffer ++ "\""
  let buffer := buffer ++ ", \"Value\":"
  let buffer := if response.IsDelete then buffer ++ "null" else buffer ++ response.Value
  let buffer := buffer ++ ", \"Timestamp\":"
  let buffer := buffer ++ "\""
  let buffer := buffer ++ lib.UnixString response.TimestampSeconds response.TimestampNanos
  let buffer := buffer ++ "\""
  let buffer := buffer ++ ", \"IsDelete\":"
  let buffer := buffer ++ "\""
  let buffer := buffer ++ strconv.FormatBool response.IsDelete
  let buffer := buffer ++ "\""
  let buffer := buffer ++ "\x7d"
  buffer

/-- The `for resultsIterator.HasNext()` loop of `GetHistoryForEntity` (lines 211-245). -/
def historyLoop (lib : Lib) :
    Cursor KeyModification → String → Bool → Stub → Except String String × Stub
  | [], buffer, _, stub => (.ok buffer, stub.record .HasNext)
  | .error err :: _, _, _, stub => (.error err, (stub.record .HasNext).record .Next)
  | .ok response :: rest, buffer, written, stub =>
    historyLoop lib rest (writeHistoryElement lib buffer written response) true
      ((stub.record .HasNext).record .Next)

/-- Go: `GetHistoryForEntity` (lines 190-251).  The arity test is `len(args) < 1`. -/
def GetHistoryForEntity (lib : Lib) (stub : Stub) (args : List String) : Outcome × Stub :=
  if args.length < 1 then
    (.ret (shim.Error "Incorrect number of arguments. Expecting 1"), stub)
  else
    let contractName := args.getD 0 ""
    match stub.GetHistoryForKey contractName with
    | (.error err, stub) => (.ret (shim.Error err), stub)
    | (.ok resultsIterator, stub) =>
      let buffer := ""
      let buffer := buffer ++ "["
      match historyLoop lib resultsIterator buffer false stub with
      | (.error err, stub) => (.ret (shim.Error err), stub.record .Close)
      | (.ok buffer, stub) =>
        let buffer := buffer ++ "]"
        (.ret (shim.Success buffer), stub.record .Close)

/-! ## Dispatch by reflection -/

/-- The exported methods of `*SmartContract`, which `MethodByName` can find. -/
inductive Method where
  | Init
  | Invoke
  | SaveEntity
  | GetEntity
  | GetEntityByQuery
  | GetHistoryForEntity
deriving DecidableEq, Repr

/-- Go: `reflect.ValueOf(s).MethodByName(function)`; `none` is the zero `Value`
returned when `*SmartContract` has no exported method of that name. -/
def MethodByName (function : String) : Option Method :=
  if function = "Init" then some .Init
  else if function = "Invoke" then some .Invoke
  else if function = "SaveEntity" then some .SaveEntity
  else if function = "GetEntity" then some .GetEntity
  else if function = "GetEntityByQuery" then some .GetEntityByQuery
  else if function = "GetHistoryForEntity" then some .GetHistoryForEntity
  else none

/-- A value behind `reflect.Value.Interface()`: a `sc.Response` or something else. -/
inductive GoValue where
  | response (r : Response)
  | other
deriving DecidableEq, Repr

/-- Go: the tail of `Invoke` (lines 90-94) once `Call` has returned `resp`:
the type assertion `.(sc.Response)` and the two branches. -/
def assertResponse (resp : GoValue) : Response :=
  match resp with
  | .response r => r
  | .other => shim.Error "Invalid Smart Contract function name."

/-- Go: `Invoke` (lines 79-95).  `inputs` is the stub followed by `args`.
`Call` on the zero `Value` panics; `Init` and `Invoke` take the stub alone, so
`Call` panics when `args` is not empty; the four handlers are variadic and take
any number of strings.  `Invoke` calling itself by name recurses, whence the
fuel: `none` is fuel exhausted. -/
def Invoke (lib : Lib) : Nat → Stub → Option (Outcome × Stub)
  | 0, _ => none
  | fuel + 1, stub =>
    let function := stub.function
    let args := stub.args
    let respond : Outcome × Stub → Option (Outcome × Stub) := fun
      | (.ret r, stub) => some (.ret (assertResponse (.response r)), stub)
      | (.panic msg, stub) => some (.panic msg, stub)
    match MethodByName function with
    | none => some (.panic "reflect: call of reflect.Value.Call on zero Value", stub)
    | some .Init =>
      if args.length ≠ 0 then some (.panic "reflect: Call with too many input arguments", stub)
      else respond (Init stub)
    | some .Invoke =>
      if args.length ≠ 0 then some (.panic "reflect: Call with too many input arguments", stub)
      else (Invoke lib fuel stub).bind respond
    | some .SaveEntity => respond (SaveEntity lib stub args)
    | some .GetEntity => respond (GetEntity stub args)
    | some .GetEntityByQuery => respond (GetEntityByQuery stub args)
    | some .GetHistoryForEntity => respond (GetHistoryForEntity lib stub args)

/-! ## Specification-side definitions -/

/-- Spec: the query result array element, with key and record spliced in verbatim. -/
def specQueryElement (kv : KV) : String :=
  "\x7b\"Key\":\"" ++ kv.Key ++ "\", \"Record\":" ++ kv.Value ++ "\x7d"

/-- Spec: the history result array element. -/
def specHistoryElement (lib : Lib) (h : KeyModification) : String :=
  "\x7b\"TxId\":\"" ++ h.TxId ++ "\", \"Value\":" ++ (if h.IsDelete then "null" else h.Value)
    ++ ", \"Timestamp\":\"" ++ lib.UnixString h.TimestampSeconds h.TimestampNanos
    ++ "\", \"IsDelete\":\"" ++ (if h.IsDelete then "true" else "false") ++ "\"\x7d"

/-- Spec: elements joined by single commas, a comma only between two elements. -/
def specJoin : List String → String
  | [] => ""
  | [e] => e
  | e :: e' :: es => e ++ "," ++ specJoin (e' :: es)

/-- Spec: the serialized array, an open bracket, the joined elements, a close bracket. -/
def specArray (es : List String) : String :=
  "[" ++ specJoin es ++ "]"

/-- What the loops append for the elements still to come: each element, with a
comma before it unless it is the first of the array. -/
def pending : Bool → List String → String
  | _, [] => ""
  | written, e :: es => (if written = true then "," else "") ++ e ++ pending true es

/-! ## JSON syntax (RFC 8259), for the well-formedness of the serialized arrays -/

namespace JSON

/-- The containers open around the current position, innermost first. -/
inductive Bracket where
  | array
  | object
deriving DecidableEq, Repr

/-- Where the recognizer stands between two characters. -/
inductive Mode where
  | value
  | arrayStart
  | objectStart
  | key
  | colon
  | done
  | string (isKey : Bool)
  | escape (isKey : Bool)
  | hex (isKey : Bool) (left : Nat)
  | literal (rest : List Nat)
  | minus
  | zero
  | int
  | dot
  | frac
  | exp
  | expSign
  | expDigits
deriving DecidableEq, Repr

/-- The four whitespace characters: space, tab, line feed, carriage return. -/
def isWhitespace (c : Char) : Bool :=
  c.toNat = 32 || c.toNat = 9 || c.toNat = 10 || c.toNat = 13

def isDigit (c : Char) : Bool :=
  48 ≤ c.toNat && c.toNat ≤ 57

def isHexDigit (c : Char) : Bool :=
  isDigit c || (65 ≤ c.toNat && c.toNat ≤ 70) || (97 ≤ c.toNat && c.toNat ≤ 102)

/-- The letters e and E. -/
def isExponentMark (c : Char) : Bool :=
  c.toNat = 101 || c.toNat = 69

/-- The first character of a value: an opening bracket, a quote, a minus sign,
a digit, or the first letter of true, false or null. -/
def startValue (stack : List Bracket) (c : Char) : Option (List Bracket × Mode) :=
  if c.toNat = 123 then some (.object :: stack, .objectStart)
  else if c.toNat = 91 then some (.array :: stack, .arrayStart)
  else if c.toNat = 34 then some (stack, .string false)
  else if c.toNat = 45 then some (stack, .minus)
  else if c.toNat = 48 then some (stack, .zero)
  else if isDigit c then some (stack, .int)
  else if c.toNat = 116 then some (stack, .literal [114, 117, 101])
  else if c.toNat = 102 then some (stack, .literal [97, 108, 115, 101])
  else if c.toNat = 110 then some (stack, .literal [117, 108, 108])
  else none

/-- The character after a complete value: whitespace, or inside a container a
comma or the closing bracket of that container. -/
def afterValue (stack : List Bracket) (c : Char) : Option (List Bracket × Mode) :=
  if isWhitespace c then some (stack, .done)
  else
    match stack with
    | [] => none
    | .array :: rest =>
      if c.toNat = 44 then some (.array :: rest, .value)
      else if c.toNat = 93 then some (rest, .done)
      else none
    | .object :: rest =>
      if c.toNat = 44 then some (.object :: rest, .key)
      else if c.toNat = 125 then some (rest, .done)
      else none

/-- One character of the recognizer; `none` rejects. -/
def advance (stack : List Bracket) (mode : Mode) (c : Char) : Option (List Bracket × Mode) :=
  match mode with
  | .value => if isWhitespace c then some (stack, .value) else startValue stack c
  | .arrayStart =>
    if isWhitespace c then some (stack, .arrayStart)
    else if c.toNat = 93 then
      match stack with
      | .array :: rest => some (rest, .done)
      | _ => none
    else startValue stack c
  | .objectStart =>
    if isWhitespace c then some (stack, .objectStart)
    else if c.toNat = 34 then some (stack, .string true)
    else if c.toNat = 125 then
      match stack with
      | .object :: rest => some (rest, .done)
      | _ => none
    else none
  | .key =>
    if isWhitespace c then some (stack, .key)
    else if c.toNat = 34 then some (stack, .string true)
    else none
  | .colon =>
    if isWhitespace c then some (stack, .colon)
    else if c.toNat = 58 then some (stack, .value)
    else none
  | .done => afterValue stack c
  | .string isKey =>
    if c.toNat = 34 then some (stack, if isKey then .colon else .done)
    else if c.toNat = 92 then some (stack, .escape isKey)
    else if c.toNat < 32 then none
    else some (stack, .string isKey)
  | .escape isKey =>
    if c.toNat = 34 || c.toNat = 92 || c.toNat = 47 || c.toNat = 98 || c.toNat = 102
        || c.toNat = 110 || c.toNat = 114 || c.toNat = 116 then some (stack, .string isKey)
    else if c.toNat = 117 then some (stack, .hex isKey 4)
    else none
  | .hex isKey left =>
    if isHexDigit c then some (stack, if left ≤ 1 then .string isKey else .hex isKey (left - 1))
    else none
  | .literal rest =>
    match rest with
    | [] => none
    | r :: rs => if c.toNat = r then some (stack, if rs = [] then .done else .literal rs) else none
  | .minus =>
    if c.toNat = 48 then some (stack, .zero)
    else if isDigit c then some (stack, .int)
    else none
  | .zero =>
    if c.toNat = 46 then some (stack, .dot)
    else if isExponentMark c then some (stack, .exp)
    else afterValue stack c
  | .int =>
    if isDigit c then some (stack, .int)
    else if c.toNat = 46 then some (stack, .dot)
    else if isExponentMark c then some (stack, .exp)
    else afterValue stack c
  | .dot => if isDigit c then some (stack, .frac) else none
  | .frac =>
    if isDigit c then some (stack, .frac)
    else if isExponentMark c then some (stack, .exp)
    else afterValue stack c
  | .exp =>
    if c.toNat = 43 || c.toNat = 45 then some (stack, .expSign)
    else if isDigit c then some (stack, .expDigits)
    else none
  | .expSign => if isDigit c then some (stack, .expDigits) else none
  | .expDigits => if isDigit c then some (stack, .expDigits) else afterValue stack c

/-- The modes in which a value is complete. -/
def Mode.complete : Mode → Bool
  | .done | .zero | .int | .frac | .expDigits => true
  | _ => false

/-- The recognizer: the open containers, the mode, and the number of values
started so far directly inside an outermost array. -/
structure Recognizer where
  stack : List Bracket
  mode : Mode
  elements : Nat
deriving DecidableEq, Repr

/-- Whether `c` starts a value directly inside an outermost array. -/
def startsElement (stack : List Bracket) (mode : Mode) (c : Char) : Bool :=
  stack = [.array] && (mode = .arrayStart || mode = .value)
    && !isWhitespace c && !(c.toNat = 93)

def step (s : Recognizer) (c : Char) : Option Recognizer :=
  match advance s.stack s.mode c with
  | none => none
  | some (stack, mode) =>
    some ⟨stack, mode, if startsElement s.stack s.mode c then s.elements + 1 else s.elements⟩

def run : Recognizer → List Char → Option Recognizer
  | s, [] => some s
  | s, c :: cs =>
    match step s c with
    | none => none
    | some s1 => run s1 cs

def start : Recognizer := ⟨[], .value, 0⟩

/-- A text is valid JSON when the recognizer reads all of it and ends with a
complete value and no container open. -/
def valid (text : String) : Bool :=
  match run start text.data with
  | some s => s.stack = [] && s.mode.complete
  | none => false

/-- For a valid JSON text whose value is an array, the number of its elements. -/
def arrayLength (text : String) : Option Nat :=
  match run start text.data with
  | some s =>
    if s.stack = [] ∧ s.mode.complete
        ∧ ((text.data.dropWhile isWhitespace).head?.map Char.toNat) = some 91 then
      some s.elements
    else none
  | none => none

/-- A character that stands for itself inside a JSON string: not a quote, not
a backslash, not a control character. -/
def plain (c : Char) : Bool :=
  !(c.toNat = 34) && !(c.toNat = 92) && !(c.toNat < 32)

end JSON

/-! ## Fixtures for the examples -/

/-- A stub with an empty store, writes that succeed and cursors that open empty. -/
def emptyStub : Stub :=
  { function := "", args := [], state := fun _ => "", putError := fun _ _ => none,
    queryResult := fun _ => .ok [], historyForKey := fun _ => .ok [], trace := [] }

/-- Hexadecimal digit of a number below 16. -/
def hexDigit (n : Nat) : String :=
  (("0123456789abcdef".toList.getD n (Char.ofNat 48))).toString

/-- Go's `encoding/json` rendering of one character inside a string (with the
default HTML escaping). -/
def encodeChar (c : Char) : String :=
  if c.toNat = 34 then "\\\""
  else if c.toNat = 92 then "\\\\"
  else if c.toNat = 10 then "\\n"
  else if c.toNat = 13 then "\\r"
  else if c.toNat = 9 then "\\t"
  else if c.toNat < 32 ∨ c.toNat = 60 ∨ c.toNat = 62 ∨ c.toNat = 38 then
    "\\u00" ++ hexDigit (c.toNat / 16) ++ hexDigit (c.toNat % 16)
  else if c.toNat = 8232 then "\\u2028"
  else if c.toNat = 8233 then "\\u2029"
  else c.toString

/-- Go's `encoding/json` rendering of a string value. -/
def encodeString (s : String) : String :=
  "\"" ++ String.join (s.toList.map encodeChar) ++ "\""

/-- Go's `json.Marshal` on the three values `entity` can hold: `null` for nil,
else the object with the struct's fields in declaration order under their tags. -/
def exampleMarshal : EntityValue → String × GoError
  | .nil => ("null", none)
  | .user u =>
    ("\x7b\"docType\":" ++ encodeString u.ObjectType ++ ",\"id\":" ++ encodeString u.Id
      ++ ",\"firstName\":" ++ encodeString u.FirstName
      ++ ",\"lastName\":" ++ encodeString u.LastName
      ++ ",\"email\":" ++ encodeString u.Email
      ++ ",\"phoneNumber\":" ++ encodeString u.PhoneNumber
      ++ ",\"userType\":" ++ encodeString u.UserType
      ++ ",\"dateOfRegistration\":" ++ encodeString u.DateOfRegistration ++ "\x7d", none)
  | .activity a =>
    ("\x7b\"docType\":" ++ encodeString a.ObjectType ++ ",\"id\":" ++ encodeString a.Id
      ++ ",\"dateOfActivity\":" ++ encodeString a.DateOfActivity ++ "\x7d", none)

/-- The payload of the spec's end-to-end scenario. -/
def anaPayload : String :=
  "\x7b\"docType\":\"User\",\"id\":\"u1\",\"firstName\":\"Ana\"\x7d"

/-- A payload whose `firstName` is a number: `json.Unmarshal` into a `User`
stores the `id`, then reports the type mismatch. -/
def mistypedPayload : String :=
  "\x7b\"id\":\"u1\",\"firstName\":7\x7d"

/-- What Go's `json.Unmarshal` does to a `User` on the payloads of the examples:
a table, any other payload is answered as a syntax error. -/
def exampleUnmarshalUser (data : String) (u : User) : User × GoError :=
  if data = anaPayload then
    ({ u with ObjectType := "User", Id := "u1", FirstName := "Ana" }, none)
  else if data = mistypedPayload then
    ({ u with Id := "u1" },
      some "json: cannot unmarshal number into Go struct field User.firstName of type string")
  else if data = "\x7b\x7d" then (u, none)
  else (u, some "invalid character in JSON input")

/-- What Go's `json.Unmarshal` does to an `Activity` on the payloads of the examples. -/
def exampleUnmarshalActivity (data : String) (a : Activity) : Activity × GoError :=
  if data = "\x7b\"docType\":\"Activity\",\"id\":\"u1\",\"dateOfActivity\":\"2018-01-01\"\x7d" then
    ({ a with ObjectType := "Activity", Id := "u1", DateOfActivity := "2018-01-01" }, none)
  else if data = "\x7b\x7d" then (a, none)
  else (a, some "invalid character in JSON input")

/-- The standard library on the inputs of the examples, for a process running
in UTC.  `json.Unmarshal` with a nil target always fails. -/
def exampleLib : Lib :=
  { UnmarshalNil := fun _ => some "json: Unmarshal(nil)",
    UnmarshalUser := exampleUnmarshalUser,
    UnmarshalActivity := exampleUnmarshalActivity,
    Marshal := exampleMarshal,
    UnixString := fun sec nsec =>
      if sec = 0 ∧ nsec = 0 then "1970-01-01 00:00:00 +0000 UTC"
      else if sec = 1500000000 ∧ nsec = 0 then "2017-07-14 02:40:00 +0000 UTC"
      else "" }

/-- A stub whose query cursor gives two items, whatever the expression. -/
def twoItemStub : Stub :=
  { emptyStub with
    queryResult := fun _ => .ok [.ok ⟨"a", "1"⟩, .ok ⟨"b", "\x7b\x7d"⟩] }

/-- A live entry and a tombstone with leftover value bytes. -/
def liveEntry : KeyModification := ⟨"tx1", "\x7b\"id\":\"u1\"\x7d", false, 0, 0⟩

def tombstoneEntry : KeyModification := ⟨"tx2", "", true, 0, 0⟩

/-- A stub whose history cursor gives `liveEntry`, then a tombstone carrying
the leftover bytes `leftover`. -/
def historyStub (leftover : String) : Stub :=
  { emptyStub with
    historyForKey := fun _ => .ok [.ok liveEntry, .ok { tombstoneEntry with Value := leftover }] }

/-- A stub whose history cursor gives `liveEntry` and then fails to read. -/
def brokenHistoryStub : Stub :=
  { emptyStub with
    historyForKey := fun _ => .ok [.ok liveEntry, .error "ledger read failed", .ok tombstoneEntry] }

/-- A stub whose every write is refused by the ledger. -/
def refusingStub : Stub :=
  { emptyStub with putError := fun _ _ => some "ledger write failed" }

/-- A stub on which opening a query cursor fails. -/
def noQueryStub : Stub :=
  { emptyStub with queryResult := fun _ => .error "ExecuteQuery not supported for leveldb" }

/-- A stub whose query cursor gives one item and then fails to read. -/
def brokenQueryStub : Stub :=
  { emptyStub with queryResult := fun _ => .ok [.ok ⟨"a", "1"⟩, .error "ledger read failed"] }

/-- A request for an operation the contract does not have. -/
def unknownRequestStub : Stub :=
  { emptyStub with function := "DeleteEntity", args := ["u1"] }

/-! ## The record codec -/

namespace Codec

/-- Inside a string: between characters, after a backslash, or inside a
`\u` escape with `left` hexadecimal digits to come and `code` read so far. -/
inductive ReadMode where
  | plain
  | escape
  | hex (left code : Nat)
deriving DecidableEq, Repr

/-- Where the decoder stands in an object whose values are strings.
`text key acc r`: inside a string, the member's key when it is the value that
is being read, the characters read so far (last first). -/
inductive Mode where
  | start
  | first
  | key
  | colon (key : String)
  | value (key : String)
  | next
  | finished
  | text (key : Option String) (acc : List Char) (r : ReadMode)
deriving DecidableEq, Repr

/-- The members read so far (last first) and the mode. -/
structure Decoder where
  members : List (String × String)
  mode : Mode
deriving DecidableEq, Repr

def hexValue (c : Char) : Option Nat :=
  if 48 ≤ c.toNat ∧ c.toNat ≤ 57 then some (c.toNat - 48)
  else if 97 ≤ c.toNat ∧ c.toNat ≤ 102 then some (c.toNat - 87)
  else if 65 ≤ c.toNat ∧ c.toNat ≤ 70 then some (c.toNat - 55)
  else none

/-- The character a one-letter escape stands for. -/
def unescape (c : Char) : Option Char :=
  if c.toNat = 34 then some (Char.ofNat 34)
  else if c.toNat = 92 then some (Char.ofNat 92)
  else if c.toNat = 47 then some (Char.ofNat 47)
  else if c.toNat = 98 then some (Char.ofNat 8)
  else if c.toNat = 102 then some (Char.ofNat 12)
  else if c.toNat = 110 then some (Char.ofNat 10)
  else if c.toNat = 114 then some (Char.ofNat 13)
  else if c.toNat = 116 then some (Char.ofNat 9)
  else none

/-- The closing quote of a string: a key waits for its colon, a value
completes a member. -/
def closeText (members : List (String × String)) (key : Option String) (acc : List Char) :
    Decoder :=
  match key with
  | none => ⟨members, .colon (String.mk acc.reverse)⟩
  | some k => ⟨(k, String.mk acc.reverse) :: members, .next⟩

/-- One character of the decoder; `none` is a payload that does not have the
shape of an object of strings. -/
def step (d : Decoder) (c : Char) : Option Decoder :=
  match d.mode with
  | .start =>
    if JSON.isWhitespace c then some d
    else if c.toNat = 123 then some ⟨d.members, .first⟩
    else none
  | .first =>
    if JSON.isWhitespace c then some d
    else if c.toNat = 34 then some ⟨d.members, .text none [] .plain⟩
    else if c.toNat = 125 then some ⟨d.members, .finished⟩
    else none
  | .key =>
    if JSON.isWhitespace c then some d
    else if c.toNat = 34 then some ⟨d.members, .text none [] .plain⟩
    else none
  | .colon k =>
    if JSON.isWhitespace c then some d
    else if c.toNat = 58 then some ⟨d.members, .value k⟩
    else none
  | .value k =>
    if JSON.isWhitespace c then some d
    else if c.toNat = 34 then some ⟨d.members, .text (some k) [] .plain⟩
    else none
  | .next =>
    if JSON.isWhitespace c then some d
    else if c.toNat = 44 then some ⟨d.members, .key⟩
    else if c.toNat = 125 then some ⟨d.members, .finished⟩
    else none
  | .finished => if JSON.isWhitespace c then some d else none
  | .text k acc .plain =>
    if c.toNat = 34 then some (closeText d.members k acc)
    else if c.toNat = 92 then some ⟨d.members, .text k acc .escape⟩
    else if c.toNat < 32 then none
    else some ⟨d.members, .text k (c :: acc) .plain⟩
  | .text k acc .escape =>
    if c.toNat = 117 then some ⟨d.members, .text k acc (.hex 4 0)⟩
    else
      match unescape c with
      | some e => some ⟨d.members, .text k (e :: acc) .plain⟩
      | none => none
  | .text k acc (.hex left code) =>
    match hexValue c with
    | none => none
    | some v =>
      if left ≤ 1 then
        if 55296 ≤ code * 16 + v ∧ code * 16 + v ≤ 57343 then none
        else some ⟨d.members, .text k (Char.ofNat (code * 16 + v) :: acc) .plain⟩
      else some ⟨d.members, .text k acc (.hex (left - 1) (code * 16 + v))⟩

def run : Decoder → List Char → Option Decoder
  | d, [] => some d
  | d, c :: cs =>
    match step d c with
    | none => none
    | some d1 => run d1 cs

/-- The members of an object of strings, in the order of the text. -/
def readMembers (text : String) : Option (List (String × String)) :=
  match run ⟨[], .start⟩ text.data with
  | some ⟨members, .finished⟩ => some members.reverse
  | _ => none

/-- The field of a `User` a member is stored in, by the `json` tag of the
struct (lines 34-41); a member under another name is skipped. -/
def setUser (u : User) (member : String × String) : User :=
  if member.1 = "docType" then { u with ObjectType := member.2 }
  else if member.1 = "id" then { u with Id := member.2 }
  else if member.1 = "firstName" then { u with FirstName := member.2 }
  else if member.1 = "lastName" then { u with LastName := member.2 }
  else if member.1 = "email" then { u with Email := member.2 }
  else if member.1 = "phoneNumber" then { u with PhoneNumber := member.2 }
  else if member.1 = "userType" then { u with UserType := member.2 }
  else if member.1 = "dateOfRegistration" then { u with DateOfRegistration := member.2 }
  else u

/-- The field of an `Activity` a member is stored in, by the `json` tag of the
struct (lines 49-51). -/
def setActivity (a : Activity) (member : String × String) : Activity :=
  if member.1 = "docType" then { a with ObjectType := member.2 }
  else if member.1 = "id" then { a with Id := member.2 }
  else if member.1 = "dateOfActivity" then { a with DateOfActivity := member.2 }
  else a

/-- Modelled from the spec: `encode(kind, fields) -> bytes` of the record codec
(`encoding/json` is not under src/): the JSON object carrying the discriminant
and all fields under the tags of the struct, as `json.Marshal` writes it. -/
def encode (record : EntityValue) : String :=
  (exampleMarshal record).1

/-- Modelled from the spec: `decode(kind, bytes) -> record` of the record codec
(`encoding/json` is not under src/): the kind selects the shape before any
parsing, an unknown kind fails; a payload that is not an object of strings
fails with a decode error; else the members are stored in a zero record of the
kind by their tags.  A `\u` escape naming a surrogate is refused. -/
def decode (kind : String) (bytes : String) : Except String EntityValue :=
  if kind = "User" then
    match readMembers bytes with
    | some members => .ok (.user (members.foldl setUser {}))
    | none => .error "DecodeError"
  else if kind = "Activity" then
    match readMembers bytes with
    | some members => .ok (.activity (members.foldl setActivity {}))
    | none => .error "DecodeError"
  else .error "UnknownKindError"

end Codec

/-- An `Activity` payload carrying the same identifier as `anaPayload`. -/
def activityPayload : String :=
  "\x7b\"docType\":\"Activity\",\"id\":\"u1\",\"dateOfActivity\":\"2018-01-01\"\x7d"

/-- A request for `GetEntity` with one key. -/
def getEntityRequestStub : Stub :=
  { emptyStub with function := "GetEntity", args := ["u1"] }

/-- A stub whose query cursor gives one item, its key holding a double quote. -/
def quoteKeyStub : Stub :=
  { emptyStub with queryResult := fun _ => .ok [.ok ⟨"a\"b", "1"⟩] }

/-- A stub whose query cursor gives one item, its key holding the text that
closes one element and opens another. -/
def splitKeyStub : Stub :=
  { emptyStub with
    queryResult := fun _ => .ok [.ok ⟨"a\", \"Record\":1\x7d,\x7b\"Key\":\"b", "2"⟩] }

/-- A stub whose store refuses the empty key, as fabric's shim does, and
accepts every other write. -/
def noEmptyKeyStub : Stub :=
  { emptyStub with
    putError := fun key _ => if key = "" then some "key must not be an empty string" else none }

/-! ## Lemmas on the serializer loops -/

theorem writeQueryElement_eq (buffer : String) (written : Bool) (kv : KV) :
    writeQueryElement buffer written kv
      = buffer ++ ((if written = true then "," else "") ++ specQueryElement kv) := by
  apply String.ext
  cases written <;> simp [writeQueryElement, specQueryElement, String.data_append]

theorem writeHistoryElement_eq (lib : Lib) (buffer : String) (written : Bool)
    (h : KeyModification) :
    writeHistoryElement lib buffer written h
      = buffer ++ ((if written = true then "," else "") ++ specHistoryElement lib h) := by
  apply String.ext
  cases written <;> cases hd : h.IsDelete <;>
    simp [writeHistoryElement, specHistoryElement, strconv.FormatBool, hd, String.data_append]

theorem specJoin_cons (e : String) (es : List String) :
    specJoin (e :: es) = e ++ pending true es := by
  induction es generalizing e with
  | nil => simp [specJoin, pending]
  | cons e' es ih =>
    rw [specJoin, ih e']
    simp [pending, String.append_assoc]

theorem pending_false (es : List String) : pending false es = specJoin es := by
  cases es with
  | nil => rfl
  | cons e es => rw [specJoin_cons]; simp [pending]

theorem queryLoop_ok (items : List KV) (buffer : String) (written : Bool) (stub : Stub) :
    (queryLoop (items.map .ok) buffer written stub).1
      = .ok (buffer ++ pending written (items.map specQueryElement)) := by
  induction items generalizing buffer written stub with
  | nil => simp [queryLoop, pending]
  | cons kv rest ih =>
    simp only [List.map_cons, queryLoop]
    rw [ih, writeQueryElement_eq]
    simp [pending, String.append_assoc]

theorem historyLoop_ok (lib : Lib) (entries : List KeyModification) (buffer : String)
    (written : Bool) (stub : Stub) :
    (historyLoop lib (entries.map .ok) buffer written stub).1
      = .ok (buffer ++ pending written (entries.map (specHistoryElement lib))) := by
  induction entries generalizing buffer written stub with
  | nil => simp [historyLoop, pending]
  | cons h rest ih =>
    simp only [List.map_cons, historyLoop]
    rw [ih, writeHistoryElement_eq]
    simp [pending, String.append_assoc]

theorem queryLoop_error (read : List KV) (err : String) (rest : Cursor KV) (buffer : String)
    (written : Bool) (stub : Stub) :
    (queryLoop (read.map .ok ++ .error err :: rest) buffer written stub).1 = .error err := by
  induction read generalizing buffer written stub with
  | nil => simp [queryLoop]
  | cons kv read ih =>
    simp only [List.map_cons, List.cons_append, queryLoop]
    exact ih _ _ _

theorem historyLoop_error (lib : Lib) (read : List KeyModification) (err : String)
    (rest : Cursor KeyModification) (buffer : String) (written : Bool) (stub : Stub) :
    (historyLoop lib (read.map .ok ++ .error err :: rest) buffer written stub).1
      = .error err := by
  induction read generalizing buffer written stub with
  | nil => simp [historyLoop]
  | cons h read ih =>
    simp only [List.map_cons, List.cons_append, historyLoop]
    exact ih _ _ _

/-- With every read succeeding, `getQueryResultForQueryString` returns the array. -/
theorem getQueryResultForQueryString_ok (stub : Stub) (queryString : String) (items : List KV)
    (hopen : stub.queryResult queryString = .ok (items.map .ok)) :
    (getQueryResultForQueryString stub queryString).1
      = (specArray (items.map specQueryElement), none) := by
  have hloop := queryLoop_ok items ("" ++ "[") false (stub.record (.GetQueryResult queryString))
  unfold getQueryResultForQueryString Stub.GetQueryResult
  rw [hopen]
  simp only []
  generalize queryLoop (items.map .ok) ("" ++ "[") false
    (stub.record (.GetQueryResult queryString)) = r at hloop
  obtain ⟨res, stub1⟩ := r
  simp only [] at hloop
  subst hloop
  simp [specArray, pending_false, String.append_assoc]

/-- With every read succeeding, `GetHistoryForEntity` answers with the array. -/
theorem GetHistoryForEntity_ok (lib : Lib) (stub : Stub) (args : List String)
    (entries : List KeyModification) (hargs : 1 ≤ args.length)
    (hopen : stub.historyForKey (args.getD 0 "") = .ok (entries.map .ok)) :
    (GetHistoryForEntity lib stub args).1
      = .ret (shim.Success (specArray (entries.map (specHistoryElement lib)))) := by
  have hloop := historyLoop_ok lib entries ("" ++ "[") false
    (stub.record (.GetHistoryForKey (args.getD 0 "")))
  unfold GetHistoryForEntity Stub.GetHistoryForKey
  rw [if_neg (by omega)]
  simp only [hopen]
  generalize historyLoop lib (entries.map .ok) ("" ++ "[") false
    (stub.record (.GetHistoryForKey (args.getD 0 ""))) = r at hloop
  obtain ⟨res, stub1⟩ := r
  simp only [] at hloop
  subst hloop
  simp [specArray, pending_false, String.append_assoc]

/-- A failed open, or a failed read after any number of good ones, makes
`getQueryResultForQueryString` return no bytes and the error. -/
theorem getQueryResultForQueryString_error (stub : Stub) (queryString err : String)
    (hfail : stub.queryResult queryString = .error err ∨
      ∃ (read : List KV) (rest : Cursor KV),
        stub.queryResult queryString = .ok (read.map .ok ++ .error err :: rest)) :
    (getQueryResultForQueryString stub queryString).1 = ("", some err) := by
  unfold getQueryResultForQueryString Stub.GetQueryResult
  rcases hfail with hopen | ⟨read, rest, hopen⟩
  · simp only [hopen]
  · have hloop := queryLoop_error read err rest ("" ++ "[") false
      (stub.record (.GetQueryResult queryString))
    simp only [hopen]
    generalize queryLoop (read.map .ok ++ .error err :: rest) ("" ++ "[") false
      (stub.record (.GetQueryResult queryString)) = r at hloop
    obtain ⟨res, stub1⟩ := r
    simp only [] at hloop
    subst hloop
    rfl

/-- A failed open, or a failed read after any number of good ones, makes
`GetHistoryForEntity` answer with the error. -/
theorem GetHistoryForEntity_error (lib : Lib) (stub : Stub) (args : List String) (err : String)
    (hargs : 1 ≤ args.length)
    (hfail : stub.historyForKey (args.getD 0 "") = .error err ∨
      ∃ (read : List KeyModification) (rest : Cursor KeyModification),
        stub.historyForKey (args.getD 0 "") = .ok (read.map .ok ++ .error err :: rest)) :
    (GetHistoryForEntity lib stub args).1 = .ret (shim.Error err) := by
  unfold GetHistoryForEntity Stub.GetHistoryForKey
  rw [if_neg (by omega)]
  rcases hfail with hopen | ⟨read, rest, hopen⟩
  · simp only [hopen]
  · have hloop := historyLoop_error lib read err rest ("" ++ "[") false
      (stub.record (.GetHistoryForKey (args.getD 0 "")))
    simp only [hopen]
    generalize historyLoop lib (read.map .ok ++ .error err :: rest) ("" ++ "[") false
      (stub.record (.GetHistoryForKey (args.getD 0 ""))) = r at hloop
    obtain ⟨res, stub1⟩ := r
    simp only [] at hloop
    subst hloop
    rfl

/-! ## Array serialization (C1 - C3) -/

/-- C1: when the query cursor opens and each of its n reads succeeds,
`getQueryResultForQueryString` returns, with a nil error, exactly the bytes
`[` e_1 `,` e_2 ... `,` e_n `]` where e_i is the element of the i-th cursor
item with key and record spliced in verbatim: one element per item, in cursor
order, a comma only between two elements; for an empty cursor it returns `[]`. -/
theorem getQueryResultForQueryString_array (stub : Stub) (queryString : String)
    (items : List KV) (hopen : stub.queryResult queryString = .ok (items.map .ok)) :
    (getQueryResultForQueryString stub queryString).1
        = (specArray (items.map specQueryElement), none)
      ∧ (items = [] → (getQueryResultForQueryString stub queryString).1 = ("[]", none)) := by
  have h := getQueryResultForQueryString_ok stub queryString items hopen
  refine ⟨h, fun hnil => ?_⟩
  rw [h, hnil]
  rfl

theorem getQueryResultForQueryString_array_witness :
    twoItemStub.queryResult "q" = .ok ([⟨"a", "1"⟩, ⟨"b", "\x7b\x7d"⟩].map .ok)
      ∧ (getQueryResultForQueryString twoItemStub "q").1
          = ("[\x7b\"Key\":\"a\", \"Record\":1\x7d,\x7b\"Key\":\"b\", \"Record\":\x7b\x7d\x7d]",
              none) :=
  ⟨rfl, (getQueryResultForQueryString_array twoItemStub "q"
    [⟨"a", "1"⟩, ⟨"b", "\x7b\x7d"⟩] rfl).1.trans (by decide)⟩

/-- C2: called with a key, when the history cursor opens and each of its n
reads succeeds, `GetHistoryForEntity` returns Success whose payload is `[`, the
n elements joined by single commas, `]`; the element of an entry has its TxId,
its value verbatim when the entry is not a delete, the rendering of its
timestamp, and its delete flag as the quoted string true or false; for an empty
cursor the payload is `[]`. -/
theorem GetHistoryForEntity_array (lib : Lib) (stub : Stub) (args : List String)
    (entries : List KeyModification) (hargs : 1 ≤ args.length)
    (hopen : stub.historyForKey (args.getD 0 "") = .ok (entries.map .ok)) :
    (GetHistoryForEntity lib stub args).1
        = .ret (shim.Success (specArray (entries.map (specHistoryElement lib))))
      ∧ (∀ h ∈ entries, h.IsDelete = false → specHistoryElement lib h =
          "\x7b\"TxId\":\"" ++ h.TxId ++ "\", \"Value\":" ++ h.Value ++ ", \"Timestamp\":\""
            ++ lib.UnixString h.TimestampSeconds h.TimestampNanos
            ++ "\", \"IsDelete\":\"false\"\x7d")
      ∧ (entries = [] → (GetHistoryForEntity lib stub args).1 = .ret (shim.Success "[]")) := by
  have h := GetHistoryForEntity_ok lib stub args entries hargs hopen
  refine ⟨h, fun e _ hlive => ?_, fun hnil => ?_⟩
  · apply String.ext
    simp [specHistoryElement, hlive, String.data_append]
  · rw [h, hnil]
    rfl

theorem GetHistoryForEntity_array_witness :
    1 ≤ ["u1"].length
      ∧ (historyStub "").historyForKey (["u1"].getD 0 "")
          = .ok ([liveEntry, tombstoneEntry].map .ok)
      ∧ (GetHistoryForEntity exampleLib (historyStub "") ["u1"]).1
          = .ret (shim.Success (specArray
              ([liveEntry, tombstoneEntry].map (specHistoryElement exampleLib)))) :=
  ⟨by decide, rfl,
    (GetHistoryForEntity_array exampleLib (historyStub "") ["u1"]
      [liveEntry, tombstoneEntry] (by decide) rfl).1⟩

/-- C3: an entry with isDelete = true, wherever it stands in the history
cursor, is emitted by `GetHistoryForEntity` with its Value field equal to the
literal null, and the emitted element (hence the whole payload) is the same for
every choice `value` of the entry's value bytes. -/
theorem GetHistoryForEntity_tombstone (lib : Lib) (stub : Stub) (args : List String)
    (before after : List KeyModification) (h : KeyModification) (value : String)
    (hargs : 1 ≤ args.length) (hdel : h.IsDelete = true)
    (hopen : stub.historyForKey (args.getD 0 "")
      = .ok ((before ++ { h with Value := value } :: after).map .ok)) :
    (GetHistoryForEntity lib stub args).1
      = .ret (shim.Success (specArray (before.map (specHistoryElement lib)
          ++ ("\x7b\"TxId\":\"" ++ h.TxId ++ "\", \"Value\":null, \"Timestamp\":\""
              ++ lib.UnixString h.TimestampSeconds h.TimestampNanos
              ++ "\", \"IsDelete\":\"true\"\x7d")
            :: after.map (specHistoryElement lib)))) := by
  rw [GetHistoryForEntity_ok lib stub args _ hargs hopen]
  have helem : specHistoryElement lib { h with Value := value }
      = "\x7b\"TxId\":\"" ++ h.TxId ++ "\", \"Value\":null, \"Timestamp\":\""
          ++ lib.UnixString h.TimestampSeconds h.TimestampNanos
          ++ "\", \"IsDelete\":\"true\"\x7d" := by
    apply String.ext
    simp [specHistoryElement, hdel, String.data_append]
  simp only [List.map_append, List.map_cons, helem]

theorem GetHistoryForEntity_tombstone_witness :
    1 ≤ ["u1"].length ∧ tombstoneEntry.IsDelete = true
      ∧ (historyStub "leftover").historyForKey (["u1"].getD 0 "")
          = .ok (([liveEntry] ++ { tombstoneEntry with Value := "leftover" } :: []).map .ok)
      ∧ (GetHistoryForEntity exampleLib (historyStub "leftover") ["u1"]).1
          = .ret (shim.Success ("[\x7b\"TxId\":\"tx1\", \"Value\":\x7b\"id\":\"u1\"\x7d, "
              ++ "\"Timestamp\":\"1970-01-01 00:00:00 +0000 UTC\", \"IsDelete\":\"false\"\x7d,"
              ++ "\x7b\"TxId\":\"tx2\", \"Value\":null, "
              ++ "\"Timestamp\":\"1970-01-01 00:00:00 +0000 UTC\", \"IsDelete\":\"true\"\x7d]")) :=
  ⟨by decide, rfl, rfl,
    (GetHistoryForEntity_tombstone exampleLib (historyStub "leftover") ["u1"] [liveEntry] []
      tombstoneEntry "leftover" (by decide) rfl rfl).trans
        (by set_option maxRecDepth 100000 in decide)⟩

/-! ## Lemmas on the handlers -/

theorem SaveEntity_arity (lib : Lib) (stub : Stub) (args : List String)
    (hlen : args.length ≠ 2) :
    SaveEntity lib stub args
      = (.ret (shim.Error "Incorrect number of arguments. Expecting 2"), stub) := by
  unfold SaveEntity
  rw [if_pos hlen]

theorem GetEntity_arity (stub : Stub) (args : List String) (hlen : args.length ≠ 1) :
    GetEntity stub args
      = (.ret (shim.Error "Incorrect number of arguments. Expecting 1"), stub) := by
  unfold GetEntity
  rw [if_pos hlen]

theorem GetEntityByQuery_arity (stub : Stub) (args : List String) (hlen : args.length ≠ 1) :
    GetEntityByQuery stub args
      = (.ret (shim.Error "Incorrect number of arguments. Expecting 1"), stub) := by
  unfold GetEntityByQuery
  rw [if_pos hlen]

theorem GetHistoryForEntity_no_args (lib : Lib) (stub : Stub) :
    GetHistoryForEntity lib stub []
      = (.ret (shim.Error "Incorrect number of arguments. Expecting 1"), stub) := by
  unfold GetHistoryForEntity
  rw [if_pos (by decide)]

/-- `SaveEntity` with two arguments, step by step: whatever `json.Unmarshal`
and `PutState` return, the outcome depends on `json.Marshal` and on the entity
being nil only. -/
theorem SaveEntity_two_args (lib : Lib) (stub : Stub) (kind payload : String) :
    SaveEntity lib stub [kind, payload]
      = match (lib.Marshal (lib.Unmarshal payload (newEntity kind)).1).2 with
        | some e =>
          (.ret (shim.Error e), (stub.record (.Unmarshal payload)).record .Marshal)
        | none =>
          match (lib.Unmarshal payload (newEntity kind)).1.getId with
          | none =>
            (.panic "runtime error: invalid memory address or nil pointer dereference",
              (stub.record (.Unmarshal payload)).record .Marshal)
          | some id =>
            (.ret (shim.Success ""),
              (((stub.record (.Unmarshal payload)).record .Marshal).PutState id
                (lib.Marshal (lib.Unmarshal payload (newEntity kind)).1).1).2) := by
  unfold SaveEntity
  simp only [List.length_cons, List.length_nil, ne_eq, not_true_eq_false, if_false,
    List.getD_cons_zero, List.getD_cons_succ]
  cases hm : (lib.Marshal (lib.Unmarshal payload (newEntity kind)).1).2 with
  | some e => simp [hm]
  | none =>
    cases hid : (lib.Unmarshal payload (newEntity kind)).1.getId with
    | none => simp [hm, hid]
    | some id => simp [hm, hid]

/-- An unknown method name makes `Invoke` panic inside `Call`, for any fuel. -/
theorem Invoke_no_method (lib : Lib) (fuel : Nat) (stub : Stub)
    (hname : MethodByName stub.function = none) :
    Invoke lib (fuel + 1) stub
      = some (.panic "reflect: call of reflect.Value.Call on zero Value", stub) := by
  unfold Invoke
  simp only [hname]

/-- The error of `getQueryResultForQueryString` never reaches the response of
`GetEntityByQuery`. -/
theorem GetEntityByQuery_one_arg (stub : Stub) (queryString : String) :
    (GetEntityByQuery stub [queryString]).1
      = .ret (shim.Success (getQueryResultForQueryString stub queryString).1.1) := by
  unfold GetEntityByQuery
  simp

/-! ## Arity, dispatch and save failures (C4 - C8) -/

/-- C4 (the code departs from the claim): `GetHistoryForEntity` tests
`len(args) < 1`, so a call with two arguments is not refused with the message
`Incorrect number of arguments. Expecting 1`: it opens the history cursor of
the first argument and returns Success. -/
theorem GetHistoryForEntity_accepts_extra_argument :
    (GetHistoryForEntity exampleLib emptyStub ["u1", "extra"]).1 = .ret (shim.Success "[]")
      ∧ (GetHistoryForEntity exampleLib emptyStub ["u1", "extra"]).2.trace
          = [.GetHistoryForKey "u1", .HasNext, .Close] := by
  decide

/-- C5 (the code departs from the claim): for the unregistered name
`DeleteEntity`, `MethodByName` gives the zero value and `Call` panics, for any
fuel; `Invoke` does not return the Failure envelope saying
`Invalid Smart Contract function name.`. -/
theorem Invoke_unknown_name_panics (fuel : Nat) :
    (Invoke exampleLib (fuel + 1) unknownRequestStub).map Prod.fst
      = some (.panic "reflect: call of reflect.Value.Call on zero Value") := by
  rw [Invoke_no_method exampleLib fuel unknownRequestStub (by decide)]
  rfl

/-- C6 (the code departs from the claim): `SaveEntity` with the unknown kind
`Order` hands the payload to `json.Unmarshal` and `json.Marshal` with a nil
entity, then panics on `entityConv.getId()`; no Failure envelope is returned.
Nothing is written to the store. -/
theorem SaveEntity_unknown_kind_panics :
    (SaveEntity exampleLib emptyStub ["Order", "\x7b\x7d"]).1
        = .panic "runtime error: invalid memory address or nil pointer dereference"
      ∧ (SaveEntity exampleLib emptyStub ["Order", "\x7b\x7d"]).2.trace
          = [.Unmarshal "\x7b\x7d", .Marshal] := by
  decide

/-- C7 (the code departs from the claim): on a `User` payload that
`json.Unmarshal` rejects, `SaveEntity` returns Success with no payload, and the
store now holds the half-decoded record under its identifier. -/
theorem SaveEntity_decode_error_succeeds :
    (exampleLib.Unmarshal mistypedPayload (newEntity "User")).2
        = some "json: cannot unmarshal number into Go struct field User.firstName of type string"
      ∧ (SaveEntity exampleLib emptyStub ["User", mistypedPayload]).1 = .ret (shim.Success "")
      ∧ emptyStub.state "u1" = ""
      ∧ (SaveEntity exampleLib emptyStub ["User", mistypedPayload]).2.state "u1"
          = ("\x7b\"docType\":\"\",\"id\":\"u1\",\"firstName\":\"\",\"lastName\":\"\","
              ++ "\"email\":\"\",\"phoneNumber\":\"\",\"userType\":\"\","
              ++ "\"dateOfRegistration\":\"\"\x7d") := by
  set_option maxRecDepth 100000 in decide

/-- C8 (the code departs from the claim): on a stub whose `PutState` fails,
`SaveEntity` calls it, drops the error and returns Success. -/
theorem SaveEntity_put_error_succeeds :
    (SaveEntity exampleLib refusingStub ["User", anaPayload]).1 = .ret (shim.Success "")
      ∧ (SaveEntity exampleLib refusingStub ["User", anaPayload]).2.trace
          = [.Unmarshal anaPayload, .Marshal,
              .PutState "u1" (exampleLib.Marshal (.user
                { ObjectType := "User", Id := "u1", FirstName := "Ana" })).1]
      ∧ (refusingStub.PutState "u1" (exampleLib.Marshal (.user
          { ObjectType := "User", Id := "u1", FirstName := "Ana" })).1).1
          = some "ledger write failed" := by
  set_option maxRecDepth 100000 in decide

/-! ## Cursor failures (C9, C10) -/

/-- C9 (the code departs from the claim): when opening the query cursor fails,
and when a read fails after one good read, `getQueryResultForQueryString`
returns the error but `GetEntityByQuery` returns Success with no payload. -/
theorem GetEntityByQuery_error_succeeds :
    (getQueryResultForQueryString noQueryStub "q").1
        = ("", some "ExecuteQuery not supported for leveldb")
      ∧ (GetEntityByQuery noQueryStub ["q"]).1 = .ret (shim.Success "")
      ∧ (getQueryResultForQueryString brokenQueryStub "q").1 = ("", some "ledger read failed")
      ∧ (GetEntityByQuery brokenQueryStub ["q"]).1 = .ret (shim.Success "") := by
  decide

/-- C10: called with a key, when opening the history cursor fails with an
error, or when a read fails with an error after any number of successful
reads, `GetHistoryForEntity` returns Failure whose message is that error's
message and whose payload is empty: none of the bytes assembled so far are in
the response. -/
theorem GetHistoryForEntity_failure (lib : Lib) (stub : Stub) (args : List String)
    (err : String) (hargs : 1 ≤ args.length)
    (hfail : stub.historyForKey (args.getD 0 "") = .error err ∨
      ∃ (read : List KeyModification) (rest : Cursor KeyModification),
        stub.historyForKey (args.getD 0 "") = .ok (read.map .ok ++ .error err :: rest)) :
    ∃ r : Response, (GetHistoryForEntity lib stub args).1 = .ret r
      ∧ r.Status = shim.ERROR ∧ r.Message = err ∧ r.Payload = "" :=
  ⟨shim.Error err, GetHistoryForEntity_error lib stub args err hargs hfail, rfl, rfl, rfl⟩

theorem GetHistoryForEntity_failure_witness :
    1 ≤ ["u1"].length
      ∧ brokenHistoryStub.historyForKey (["u1"].getD 0 "")
          = .ok ([liveEntry].map .ok ++ .error "ledger read failed" :: [.ok tombstoneEntry])
      ∧ ∃ r : Response, (GetHistoryForEntity exampleLib brokenHistoryStub ["u1"]).1 = .ret r
          ∧ r.Status = shim.ERROR ∧ r.Message = "ledger read failed" ∧ r.Payload = "" :=
  ⟨by decide, rfl,
    GetHistoryForEntity_failure exampleLib brokenHistoryStub ["u1"] "ledger read failed"
      (by decide) (Or.inr ⟨[liveEntry], [.ok tombstoneEntry], rfl⟩)⟩

/-! ## Lemmas on saving, reading and cursor release -/

/-- `SaveEntity` leaves the store's answers to writes as they were. -/
theorem SaveEntity_putError (lib : Lib) (stub : Stub) (args : List String) :
    (SaveEntity lib stub args).2.putError = stub.putError := by
  unfold SaveEntity
  split
  · rfl
  · simp only [Stub.PutState, Stub.record]
    repeat' split
    all_goals rfl

/-- A two-argument `SaveEntity` leaves every key other than the decoded
identifier as it was. -/
theorem SaveEntity_other_keys (lib : Lib) (stub : Stub) (kind payload id key : String)
    (hid : (lib.Unmarshal payload (newEntity kind)).1.getId = some id) (hkey : key ≠ id) :
    (SaveEntity lib stub [kind, payload]).2.state key = stub.state key := by
  rw [SaveEntity_two_args]
  cases hm : (lib.Marshal (lib.Unmarshal payload (newEntity kind)).1).2 with
  | some e => simp [hm, Stub.record]
  | none =>
    simp only [hm, hid, Stub.PutState, Stub.record]
    split <;> simp [hkey]

/-- The stub `SaveEntity` leaves behind when the entity has an identifier,
`json.Marshal` succeeds and the store accepts the one write the call makes. -/
theorem SaveEntity_stored (lib : Lib) (stub : Stub) (kind payload id : String)
    (hid : (lib.Unmarshal payload (newEntity kind)).1.getId = some id)
    (hmar : (lib.Marshal (lib.Unmarshal payload (newEntity kind)).1).2 = none)
    (hput : stub.putError id (lib.Marshal (lib.Unmarshal payload (newEntity kind)).1).1
      = none) :
    SaveEntity lib stub [kind, payload]
      = (.ret (shim.Success ""),
          { stub with
            state := fun k =>
              if k = id then (lib.Marshal (lib.Unmarshal payload (newEntity kind)).1).1
              else stub.state k,
            trace := stub.trace ++ [.Unmarshal payload, .Marshal,
              .PutState id (lib.Marshal (lib.Unmarshal payload (newEntity kind)).1).1] }) := by
  rw [SaveEntity_two_args]
  simp only [hmar, hid, Stub.PutState, Stub.record, hput, List.append_assoc,
    List.cons_append, List.nil_append]

theorem GetEntity_one_arg (stub : Stub) (key : String) :
    GetEntity stub [key] = (.ret (shim.Success (stub.state key)), stub.record (.GetState key)) := by
  simp [GetEntity, Stub.GetState]

theorem queryLoop_trace (cursor : Cursor KV) (buffer : String) (written : Bool) (stub : Stub) :
    ∃ evs, (queryLoop cursor buffer written stub).2.trace = stub.trace ++ evs
      ∧ Event.Close ∉ evs := by
  induction cursor generalizing buffer written stub with
  | nil => exact ⟨[.HasNext], rfl, by simp⟩
  | cons r rest ih =>
    cases r with
    | error err => exact ⟨[.HasNext, .Next], by simp [queryLoop, Stub.record], by simp⟩
    | ok kv =>
      obtain ⟨evs, htrace, hclose⟩ := ih (writeQueryElement buffer written kv) true
        ((stub.record .HasNext).record .Next)
      refine ⟨[.HasNext, .Next] ++ evs, ?_, by simpa using hclose⟩
      simp only [queryLoop, htrace]
      simp [Stub.record]

theorem historyLoop_trace (lib : Lib) (cursor : Cursor KeyModification) (buffer : String)
    (written : Bool) (stub : Stub) :
    ∃ evs, (historyLoop lib cursor buffer written stub).2.trace = stub.trace ++ evs
      ∧ Event.Close ∉ evs := by
  induction cursor generalizing buffer written stub with
  | nil => exact ⟨[.HasNext], rfl, by simp⟩
  | cons r rest ih =>
    cases r with
    | error err => exact ⟨[.HasNext, .Next], by simp [historyLoop, Stub.record], by simp⟩
    | ok h =>
      obtain ⟨evs, htrace, hclose⟩ := ih (writeHistoryElement lib buffer written h) true
        ((stub.record .HasNext).record .Next)
      refine ⟨[.HasNext, .Next] ++ evs, ?_, by simpa using hclose⟩
      simp only [historyLoop, htrace]
      simp [Stub.record]

theorem getQueryResultForQueryString_trace (stub : Stub) (queryString : String)
    (cursor : Cursor KV) (hopen : stub.queryResult queryString = .ok cursor) :
    ∃ evs, (getQueryResultForQueryString stub queryString).2.trace
        = stub.trace ++ evs ++ [.Close] ∧ Event.Close ∉ evs := by
  obtain ⟨evs, htrace, hclose⟩ := queryLoop_trace cursor ("" ++ "[") false
    (stub.record (.GetQueryResult queryString))
  refine ⟨.GetQueryResult queryString :: evs, ?_, by simpa using hclose⟩
  unfold getQueryResultForQueryString Stub.GetQueryResult
  simp only [hopen]
  generalize queryLoop cursor ("" ++ "[") false
    (stub.record (.GetQueryResult queryString)) = r at htrace
  obtain ⟨res, stub1⟩ := r
  cases res <;> simp_all [Stub.record]

theorem GetHistoryForEntity_trace (lib : Lib) (stub : Stub) (args : List String)
    (cursor : Cursor KeyModification) (hargs : 1 ≤ args.length)
    (hopen : stub.historyForKey (args.getD 0 "") = .ok cursor) :
    ∃ evs, (GetHistoryForEntity lib stub args).2.trace
        = stub.trace ++ evs ++ [.Close] ∧ Event.Close ∉ evs := by
  obtain ⟨evs, htrace, hclose⟩ := historyLoop_trace lib cursor ("" ++ "[") false
    (stub.record (.GetHistoryForKey (args.getD 0 "")))
  refine ⟨.GetHistoryForKey (args.getD 0 "") :: evs, ?_, by simpa using hclose⟩
  unfold GetHistoryForEntity Stub.GetHistoryForKey
  rw [if_neg (by omega)]
  simp only [hopen]
  generalize historyLoop lib cursor ("" ++ "[") false
    (stub.record (.GetHistoryForKey (args.getD 0 ""))) = r at htrace
  obtain ⟨res, stub1⟩ := r
  cases res <;> simp_all [Stub.record]

theorem GetEntityByQuery_trace (stub : Stub) (queryString : String) :
    (GetEntityByQuery stub [queryString]).2
      = (getQueryResultForQueryString stub queryString).2 := by
  unfold GetEntityByQuery
  simp

/-! ## Save and read back (C11 - C13) -/

/-- C11 (as amended): for every payload that decodes as a User or an Activity
with identifier k and whose record `json.Marshal` encodes, `SaveEntity` on a
store whose put of that encoding under k succeeds returns Success with an
empty payload, and a subsequent `GetEntity(k)` returns Success whose payload is
the `json.Marshal` encoding of the decoded record (not the bytes of the payload
that was sent). -/
theorem SaveEntity_then_GetEntity (lib : Lib) (stub : Stub) (kind payload k : String)
    (hid : (lib.Unmarshal payload (newEntity kind)).1.getId = some k)
    (hmar : (lib.Marshal (lib.Unmarshal payload (newEntity kind)).1).2 = none)
    (hput : stub.putError k (lib.Marshal (lib.Unmarshal payload (newEntity kind)).1).1
      = none) :
    (SaveEntity lib stub [kind, payload]).1 = .ret (shim.Success "")
      ∧ (GetEntity (SaveEntity lib stub [kind, payload]).2 [k]).1
          = .ret (shim.Success (lib.Marshal (lib.Unmarshal payload (newEntity kind)).1).1) := by
  rw [SaveEntity_stored lib stub kind payload k hid hmar hput, GetEntity_one_arg]
  simp

theorem SaveEntity_then_GetEntity_witness :
    (exampleLib.Unmarshal anaPayload (newEntity "User")).1.getId = some "u1"
      ∧ (exampleLib.Marshal (exampleLib.Unmarshal anaPayload (newEntity "User")).1).2 = none
      ∧ noEmptyKeyStub.putError "u1"
          (exampleLib.Marshal (exampleLib.Unmarshal anaPayload (newEntity "User")).1).1 = none
      ∧ (SaveEntity exampleLib noEmptyKeyStub ["User", anaPayload]).1
          = .ret (shim.Success "")
      ∧ (GetEntity (SaveEntity exampleLib noEmptyKeyStub ["User", anaPayload]).2 ["u1"]).1
          = .ret (shim.Success
              (exampleLib.Marshal (exampleLib.Unmarshal anaPayload (newEntity "User")).1).1) :=
  ⟨by decide, by decide, by decide,
    SaveEntity_then_GetEntity exampleLib noEmptyKeyStub "User" anaPayload "u1"
      (by decide) (by decide) (by decide)⟩

/-- C11 as stated fails: the scenario payload decodes as a User with identifier
u1 and the save succeeds, yet `GetEntity(u1)` does not return the payload's
bytes: the stored bytes carry all eight fields of the struct. -/
theorem SaveEntity_GetEntity_not_verbatim :
    exampleLib.Unmarshal anaPayload (newEntity "User")
        = (.user { ObjectType := "User", Id := "u1", FirstName := "Ana" }, none)
      ∧ (SaveEntity exampleLib emptyStub ["User", anaPayload]).1 = .ret (shim.Success "")
      ∧ (GetEntity (SaveEntity exampleLib emptyStub ["User", anaPayload]).2 ["u1"]).1
          ≠ .ret (shim.Success anaPayload)
      ∧ (GetEntity (SaveEntity exampleLib emptyStub ["User", anaPayload]).2 ["u1"]).1
          = .ret (shim.Success
              ("\x7b\"docType\":\"User\",\"id\":\"u1\",\"firstName\":\"Ana\",\"lastName\":\"\","
                ++ "\"email\":\"\",\"phoneNumber\":\"\",\"userType\":\"\","
                ++ "\"dateOfRegistration\":\"\"\x7d")) := by
  set_option maxRecDepth 100000 in decide

/-- C12: for every store state and every key, `GetEntity(key)` returns Success
whose payload is exactly the bytes stored under the key; when the key is absent
(reads as empty) the response is Success with an empty payload, not Failure. -/
theorem GetEntity_returns_stored (stub : Stub) (key : String) :
    (GetEntity stub [key]).1 = .ret (shim.Success (stub.state key))
      ∧ (stub.state key = "" → (GetEntity stub [key]).1 = .ret ⟨shim.OK, "", ""⟩) := by
  rw [GetEntity_one_arg]
  exact ⟨rfl, fun habsent => by rw [habsent]; rfl⟩

theorem GetEntity_returns_stored_witness :
    emptyStub.state "u1" = "" ∧ (GetEntity emptyStub ["u1"]).1 = .ret ⟨shim.OK, "", ""⟩ :=
  ⟨rfl, (GetEntity_returns_stored emptyStub "u1").2 rfl⟩

/-- C13: for every identifier X and every two payloads, of kinds K1 and K2
among User and Activity (the same or not), whose decoded records both carry X:
after `SaveEntity(K1, p1)` then `SaveEntity(K2, p2)`, when the K2 record is
encoded and its put under X succeeds, `GetEntity(X)` returns the encoding of
the K2 record alone, whatever the first save left under X; the key of both
saves is the identifier, whatever the kind: every key other than X holds what
it held before the two saves. -/
theorem SaveEntity_last_write_wins (lib : Lib) (stub : Stub)
    (kind1 payload1 kind2 payload2 id : String)
    (hid1 : (lib.Unmarshal payload1 (newEntity kind1)).1.getId = some id)
    (hid2 : (lib.Unmarshal payload2 (newEntity kind2)).1.getId = some id)
    (hmar2 : (lib.Marshal (lib.Unmarshal payload2 (newEntity kind2)).1).2 = none)
    (hput2 : stub.putError id (lib.Marshal (lib.Unmarshal payload2 (newEntity kind2)).1).1
      = none) :
    (GetEntity (SaveEntity lib (SaveEntity lib stub [kind1, payload1]).2
          [kind2, payload2]).2 [id]).1
        = .ret (shim.Success (lib.Marshal (lib.Unmarshal payload2 (newEntity kind2)).1).1)
      ∧ ∀ key : String, key ≠ id →
        (SaveEntity lib (SaveEntity lib stub [kind1, payload1]).2 [kind2, payload2]).2.state key
          = stub.state key := by
  refine ⟨?_, fun key hkey => by
    rw [SaveEntity_other_keys lib _ kind2 payload2 id key hid2 hkey,
      SaveEntity_other_keys lib stub kind1 payload1 id key hid1 hkey]⟩
  obtain ⟨stub1, hstub1, hput1⟩ : ∃ stub1, (SaveEntity lib stub [kind1, payload1]).2 = stub1
      ∧ stub1.putError = stub.putError :=
    ⟨_, rfl, SaveEntity_putError lib stub [kind1, payload1]⟩
  rw [hstub1, SaveEntity_stored lib stub1 kind2 payload2 id hid2 hmar2 (by rw [hput1, hput2]),
    GetEntity_one_arg]
  simp

theorem SaveEntity_last_write_wins_witness :
    (exampleLib.Unmarshal anaPayload (newEntity "User")).1.getId = some "u1"
      ∧ (exampleLib.Unmarshal activityPayload (newEntity "Activity")).1.getId = some "u1"
      ∧ (exampleLib.Marshal
          (exampleLib.Unmarshal activityPayload (newEntity "Activity")).1).2 = none
      ∧ noEmptyKeyStub.putError "u1" (exampleLib.Marshal
          (exampleLib.Unmarshal activityPayload (newEntity "Activity")).1).1 = none
      ∧ (GetEntity (SaveEntity exampleLib
            (SaveEntity exampleLib noEmptyKeyStub ["User", anaPayload]).2
            ["Activity", activityPayload]).2 ["u1"]).1
          = .ret (shim.Success (exampleLib.Marshal
              (exampleLib.Unmarshal activityPayload (newEntity "Activity")).1).1) :=
  ⟨by decide, by decide, by decide, by decide,
    (SaveEntity_last_write_wins exampleLib noEmptyKeyStub "User" anaPayload "Activity"
      activityPayload "u1" (by decide) (by decide) (by decide) (by decide)).1⟩

/-! ## Cursor release, identifiers, dispatch and frame (C15, C17 - C19) -/

/-- C15: for `GetEntityByQuery` and `GetHistoryForEntity`, on every run in
which the cursor opens (whatever its reads then give: all good, or a failure
after any number of good reads), the calls the handler adds to the trace end
with `Close` and hold no other `Close`: the cursor is closed exactly once,
as the last call before the handler returns. -/
theorem cursor_closed_exactly_once (lib : Lib) (stub : Stub) (args : List String) :
    (∀ cursor : Cursor KV, args.length = 1 →
        stub.queryResult (args.getD 0 "") = .ok cursor →
        ∃ evs, (GetEntityByQuery stub args).2.trace = stub.trace ++ evs ++ [.Close]
          ∧ Event.Close ∉ evs)
      ∧ (∀ cursor : Cursor KeyModification, 1 ≤ args.length →
        stub.historyForKey (args.getD 0 "") = .ok cursor →
        ∃ evs, (GetHistoryForEntity lib stub args).2.trace = stub.trace ++ evs ++ [.Close]
          ∧ Event.Close ∉ evs) := by
  refine ⟨fun cursor hlen hopen => ?_, fun cursor hlen hopen =>
    GetHistoryForEntity_trace lib stub args cursor hlen hopen⟩
  obtain ⟨queryString, rfl⟩ : ∃ q, args = [q] := by
    match args, hlen with
    | [q], _ => exact ⟨q, rfl⟩
  rw [GetEntityByQuery_trace]
  exact getQueryResultForQueryString_trace stub queryString cursor hopen

theorem cursor_closed_exactly_once_witness :
    (["q"].length = 1
        ∧ brokenQueryStub.queryResult (["q"].getD 0 "")
            = .ok [.ok ⟨"a", "1"⟩, .error "ledger read failed"]
        ∧ ∃ evs, (GetEntityByQuery brokenQueryStub ["q"]).2.trace
            = brokenQueryStub.trace ++ evs ++ [.Close] ∧ Event.Close ∉ evs)
      ∧ (1 ≤ ["q"].length
        ∧ brokenHistoryStub.historyForKey (["q"].getD 0 "")
            = .ok [.ok liveEntry, .error "ledger read failed", .ok tombstoneEntry]
        ∧ ∃ evs, (GetHistoryForEntity exampleLib brokenHistoryStub ["q"]).2.trace
            = brokenHistoryStub.trace ++ evs ++ [.Close] ∧ Event.Close ∉ evs) :=
  ⟨⟨rfl, rfl, (cursor_closed_exactly_once exampleLib brokenQueryStub ["q"]).1 _ rfl rfl⟩,
    ⟨by decide, rfl,
      (cursor_closed_exactly_once exampleLib brokenHistoryStub ["q"]).2 _ (by decide) rfl⟩⟩

/-- C17 (as amended): for every call `SaveEntity(kind, payload)` that returns
Success, the one key handed to the store's put is the identifier field of the
decoded record, taken as it is: `SaveEntity` makes no test on it, so the key is
non-empty exactly when the decoded identifier is non-empty. -/
theorem SaveEntity_key_is_decoded_identifier (lib : Lib) (stub : Stub)
    (kind payload : String) (r : Response)
    (hret : (SaveEntity lib stub [kind, payload]).1 = .ret r) (hok : r.Status = shim.OK) :
    ∃ id, (lib.Unmarshal payload (newEntity kind)).1.getId = some id
      ∧ (SaveEntity lib stub [kind, payload]).2.trace
          = stub.trace ++ [.Unmarshal payload, .Marshal,
              .PutState id (lib.Marshal (lib.Unmarshal payload (newEntity kind)).1).1] := by
  rw [SaveEntity_two_args] at hret ⊢
  cases hm : (lib.Marshal (lib.Unmarshal payload (newEntity kind)).1).2 with
  | some e =>
    simp only [hm, Outcome.ret.injEq] at hret
    subst hret
    exact absurd hok (by simp [shim.Error, shim.ERROR, shim.OK])
  | none =>
    cases hid : (lib.Unmarshal payload (newEntity kind)).1.getId with
    | none => simp [hm, hid] at hret
    | some id =>
      refine ⟨id, rfl, ?_⟩
      simp only [hm, hid, Stub.PutState, Stub.record]
      split <;> simp

theorem SaveEntity_key_is_decoded_identifier_witness :
    (SaveEntity exampleLib emptyStub ["User", anaPayload]).1 = .ret (shim.Success "")
      ∧ (shim.Success "").Status = shim.OK
      ∧ ∃ id, (exampleLib.Unmarshal anaPayload (newEntity "User")).1.getId = some id
          ∧ (SaveEntity exampleLib emptyStub ["User", anaPayload]).2.trace
              = emptyStub.trace ++ [.Unmarshal anaPayload, .Marshal,
                  .PutState id (exampleLib.Marshal
                    (exampleLib.Unmarshal anaPayload (newEntity "User")).1).1] :=
  ⟨by decide, rfl,
    SaveEntity_key_is_decoded_identifier exampleLib emptyStub "User" anaPayload
      (shim.Success "") (by decide) rfl⟩

/-- C17 as stated fails: the payload of an empty object decodes without error
into a User whose identifier is empty; `SaveEntity` returns Success and the key
it hands to put is the empty string; on a store that accepts the write, a
record is then held under the empty identifier. -/
theorem SaveEntity_stores_under_empty_identifier :
    exampleLib.Unmarshal "\x7b\x7d" (newEntity "User") = (.user {}, none)
      ∧ (SaveEntity exampleLib emptyStub ["User", "\x7b\x7d"]).1 = .ret (shim.Success "")
      ∧ (SaveEntity exampleLib emptyStub ["User", "\x7b\x7d"]).2.trace
          = [.Unmarshal "\x7b\x7d", .Marshal,
              .PutState "" (exampleLib.Marshal (.user {})).1]
      ∧ (SaveEntity exampleLib emptyStub ["User", "\x7b\x7d"]).2.state "" ≠ "" := by
  set_option maxRecDepth 100000 in decide

/-- C18: for each of the four recognized operation names and every argument
list, `Invoke` (with any fuel above zero) returns exactly what the named handler
returns when called directly with the same stub and the same argument list, in
the same order: nothing is added, dropped, reordered or replaced. -/
theorem Invoke_returns_handler_response (lib : Lib) (fuel : Nat) (stub : Stub) :
    (stub.function = "SaveEntity" →
        Invoke lib (fuel + 1) stub = some (SaveEntity lib stub stub.args))
      ∧ (stub.function = "GetEntity" →
        Invoke lib (fuel + 1) stub = some (GetEntity stub stub.args))
      ∧ (stub.function = "GetEntityByQuery" →
        Invoke lib (fuel + 1) stub = some (GetEntityByQuery stub stub.args))
      ∧ (stub.function = "GetHistoryForEntity" →
        Invoke lib (fuel + 1) stub = some (GetHistoryForEntity lib stub stub.args)) := by
  refine ⟨fun h => ?_, fun h => ?_, fun h => ?_, fun h => ?_⟩
  · unfold Invoke
    simp only [h, MethodByName]
    simp only [String.reduceEq, if_false, if_true]
    rcases SaveEntity lib stub stub.args with ⟨_ | _, _⟩ <;> rfl
  · unfold Invoke
    simp only [h, MethodByName]
    simp only [String.reduceEq, if_false, if_true]
    rcases GetEntity stub stub.args with ⟨_ | _, _⟩ <;> rfl
  · unfold Invoke
    simp only [h, MethodByName]
    simp only [String.reduceEq, if_false, if_true]
    rcases GetEntityByQuery stub stub.args with ⟨_ | _, _⟩ <;> rfl
  · unfold Invoke
    simp only [h, MethodByName]
    simp only [String.reduceEq, if_false, if_true]
    rcases GetHistoryForEntity lib stub stub.args with ⟨_ | _, _⟩ <;> rfl


theorem Invoke_returns_handler_response_witness :
    getEntityRequestStub.function = "GetEntity"
      ∧ Invoke exampleLib (0 + 1) getEntityRequestStub
          = some (GetEntity getEntityRequestStub getEntityRequestStub.args) :=
  ⟨rfl, (Invoke_returns_handler_response exampleLib 0 getEntityRequestStub).2.1 rfl⟩

/-- C19: for every store and every argument list, after `SaveEntity` every key
other than the decoded record's identifier holds the value it held before;
when the arity check fails the store is unchanged altogether. -/
theorem SaveEntity_frame (lib : Lib) (stub : Stub) (args : List String) :
    (args.length ≠ 2 → (SaveEntity lib stub args).2.state = stub.state)
      ∧ ∀ key : String,
        (lib.Unmarshal (args.getD 1 "") (newEntity (args.getD 0 ""))).1.getId ≠ some key →
        (SaveEntity lib stub args).2.state key = stub.state key := by
  refine ⟨fun hlen => by rw [SaveEntity_arity lib stub args hlen], fun key hkey => ?_⟩
  by_cases hlen : args.length = 2
  · obtain ⟨kind, payload, rfl⟩ : ∃ kind payload, args = [kind, payload] := by
      match args, hlen with
      | [kind, payload], _ => exact ⟨kind, payload, rfl⟩
    simp only [List.getD_cons_zero, List.getD_cons_succ] at hkey
    rw [SaveEntity_two_args]
    cases hm : (lib.Marshal (lib.Unmarshal payload (newEntity kind)).1).2 with
    | some e => simp [hm, Stub.record]
    | none =>
      cases hid : (lib.Unmarshal payload (newEntity kind)).1.getId with
      | none => simp [hm, hid, Stub.record]
      | some id =>
        have hne : key ≠ id := fun h => hkey (by rw [hid, h])
        simp only [hm, hid, Stub.PutState, Stub.record]
        split <;> simp [hne]
  · rw [SaveEntity_arity lib stub args hlen]

theorem SaveEntity_frame_witness :
    (["User"].length ≠ 2 → (SaveEntity exampleLib emptyStub ["User"]).2.state = emptyStub.state)
      ∧ ((exampleLib.Unmarshal (["User", anaPayload].getD 1 "")
            (newEntity (["User", anaPayload].getD 0 ""))).1.getId ≠ some "u2"
        ∧ (SaveEntity exampleLib emptyStub ["User", anaPayload]).2.state "u2"
            = emptyStub.state "u2") :=
  ⟨(SaveEntity_frame exampleLib emptyStub ["User"]).1,
    by decide,
    (SaveEntity_frame exampleLib emptyStub ["User", anaPayload]).2 "u2" (by decide)⟩

/-! ## Lemmas on the JSON recognizer -/

namespace JSON

theorem startValue_append (τ : List Bracket) (c : Char) :
    startValue τ c = (startValue [] c).map fun r => (r.1 ++ τ, r.2) := by
  simp only [startValue]
  repeat' split
  all_goals simp

theorem startValue_frame (τ σ : List Bracket) (c : Char) (τ' : List Bracket) (q' : Mode)
    (h : startValue τ c = some (τ', q')) : startValue (τ ++ σ) c = some (τ' ++ σ, q') := by
  rw [startValue_append] at h ⊢
  cases hs : startValue [] c with
  | none => simp [hs] at h
  | some r =>
    simp only [hs, Option.map_some', Option.some.injEq, Prod.mk.injEq] at h ⊢
    obtain ⟨rfl, rfl⟩ := h
    simp

theorem afterValue_frame (τ σ : List Bracket) (c : Char) (τ' : List Bracket) (q' : Mode)
    (h : afterValue τ c = some (τ', q')) : afterValue (τ ++ σ) c = some (τ' ++ σ, q') := by
  unfold afterValue at h ⊢
  by_cases hws : isWhitespace c = true
  · simp_all
  · simp only [hws, if_false] at h ⊢
    cases τ with
    | nil => simp at h
    | cons b rest =>
      cases b <;>
      · simp only [List.cons_append] at h ⊢
        split_ifs at h ⊢ <;> simp_all
        all_goals
          obtain ⟨rfl, rfl⟩ := h
          simp

theorem advance_frame (τ σ : List Bracket) (q : Mode) (c : Char) (τ' : List Bracket)
    (q' : Mode) (h : advance τ q c = some (τ', q')) :
    advance (τ ++ σ) q c = some (τ' ++ σ, q') := by
  cases q with
  | value =>
    unfold advance at h ⊢
    simp only [] at h ⊢
    split_ifs at h ⊢
    · simp_all
    · exact startValue_frame τ σ c τ' q' h
  | arrayStart =>
    unfold advance at h ⊢
    simp only [] at h ⊢
    split_ifs at h ⊢
    · simp_all
    · match τ, h with
      | .array :: rest, h => simp_all
    · exact startValue_frame τ σ c τ' q' h
  | objectStart =>
    unfold advance at h ⊢
    simp only [] at h ⊢
    split_ifs at h ⊢
    · simp_all
    · simp_all
    · match τ, h with
      | .object :: rest, h => simp_all
  | done => exact afterValue_frame τ σ c τ' q' h
  | key | colon | dot | exp | expSign | minus =>
    unfold advance at h ⊢
    simp only [] at h ⊢
    split_ifs at h ⊢ <;> simp_all
  | string b | escape b =>
    unfold advance at h ⊢
    simp only [] at h ⊢
    split_ifs at h ⊢ <;> simp_all
  | hex b n =>
    unfold advance at h ⊢
    simp only [] at h ⊢
    split_ifs at h ⊢ <;> simp_all
  | literal rest =>
    unfold advance at h ⊢
    cases rest with
    | nil => simp at h
    | cons r rs =>
      simp only [] at h ⊢
      split_ifs at h ⊢ <;> simp_all
  | zero | int | frac | expDigits =>
    unfold advance at h ⊢
    simp only [] at h ⊢
    split_ifs at h ⊢
    all_goals first
      | exact afterValue_frame τ σ c τ' q' h
      | simp_all

theorem step_frame (τ σ : List Bracket) (q : Mode) (c : Char) (m n : Nat) (s1 : Recognizer)
    (hσ : 2 ≤ σ.length) (h : step ⟨τ, q, m⟩ c = some s1) :
    step ⟨τ ++ σ, q, n⟩ c = some ⟨s1.stack ++ σ, s1.mode, n⟩ := by
  unfold step at h ⊢
  simp only [] at h ⊢
  cases ha : advance τ q c with
  | none => simp [ha] at h
  | some r =>
    obtain ⟨τ', q'⟩ := r
    have hne : startsElement (τ ++ σ) q c = false := by
      have : τ ++ σ ≠ [Bracket.array] := by
        intro heq
        have := congrArg List.length heq
        simp at this
        omega
      simp [startsElement, this]
    rw [ha] at h
    simp only [Option.some.injEq] at h
    subst h
    rw [advance_frame τ σ q c τ' q' ha]
    simp [hne]

theorem run_frame (cs : List Char) (τ σ : List Bracket) (q : Mode) (m n : Nat)
    (s1 : Recognizer) (hσ : 2 ≤ σ.length) (h : run ⟨τ, q, m⟩ cs = some s1) :
    run ⟨τ ++ σ, q, n⟩ cs = some ⟨s1.stack ++ σ, s1.mode, n⟩ := by
  induction cs generalizing τ q m with
  | nil =>
    simp only [run, Option.some.injEq] at h
    subst h
    rfl
  | cons c cs ih =>
    simp only [run] at h ⊢
    cases hs : step ⟨τ, q, m⟩ c with
    | none => simp [hs] at h
    | some s2 =>
      rw [hs] at h
      rw [step_frame τ σ q c m n s2 hσ hs]
      exact ih s2.stack s2.mode s2.elements h

theorem run_append (s : Recognizer) (a b : List Char) :
    run s (a ++ b) = (run s a).bind fun s1 => run s1 b := by
  induction a generalizing s with
  | nil => rfl
  | cons c a ih =>
    simp only [List.cons_append, run]
    cases step s c with
    | none => rfl
    | some s1 => exact ih s1

theorem run_plain (cs : List Char) (σ : List Bracket) (isKey : Bool) (n : Nat)
    (hplain : ∀ c ∈ cs, plain c = true) :
    run ⟨σ, .string isKey, n⟩ cs = some ⟨σ, .string isKey, n⟩ := by
  induction cs with
  | nil => rfl
  | cons c cs ih =>
    have hc := hplain c (List.mem_cons_self c cs)
    simp only [plain, Bool.and_eq_true, Bool.not_eq_true', decide_eq_false_iff_not] at hc
    obtain ⟨⟨h34, h92⟩, h32⟩ := hc
    have hstep : step ⟨σ, .string isKey, n⟩ c = some ⟨σ, .string isKey, n⟩ := by
      simp [step, advance, startsElement, h34, h92, h32]
    simp only [run, hstep]
    exact ih fun d hd => hplain d (List.mem_cons_of_mem c hd)

/-- The closing brace after a complete value inside an object. -/
theorem run_close_object (ρ : List Bracket) (q : Mode) (n : Nat) (hq : q.complete = true) :
    run ⟨.object :: ρ, q, n⟩ "\x7d".data = some ⟨ρ, .done, n⟩ := by
  cases q <;> first | rfl | simp [Mode.complete] at hq

theorem run_element_open (m : Mode) (n : Nat) (hm : m = .arrayStart ∨ m = .value) :
    run ⟨[.array], m, n⟩ "\x7b\"Key\":\"".data
      = some ⟨[.object, .array], .string false, n + 1⟩ := by
  rcases hm with rfl | rfl <;> rfl

theorem run_element_middle (n : Nat) :
    run ⟨[.object, .array], .string false, n⟩ "\", \"Record\":".data
      = some ⟨[.object, .array], .value, n⟩ := rfl

/-- One element of the query array, read directly inside the outermost array:
the recognizer comes back to the array with one more element counted. -/
theorem run_queryElement (kv : KV) (m : Mode) (n : Nat) (hm : m = .arrayStart ∨ m = .value)
    (hkey : ∀ c ∈ kv.Key.data, plain c = true) (hvalue : valid kv.Value = true) :
    run ⟨[.array], m, n⟩ (specQueryElement kv).data = some ⟨[.array], .done, n + 1⟩ := by
  obtain ⟨s1, hrun, hstack, hmode⟩ : ∃ s1, run start kv.Value.data = some s1
      ∧ s1.stack = [] ∧ s1.mode.complete = true := by
    unfold valid at hvalue
    cases hr : run start kv.Value.data with
    | none => simp [hr] at hvalue
    | some s1 =>
      simp only [hr, Bool.and_eq_true, decide_eq_true_eq] at hvalue
      exact ⟨s1, rfl, hvalue.1, hvalue.2⟩
  have hframe := run_frame kv.Value.data [] [.object, .array] .value 0 (n + 1) s1
    (by decide) hrun
  rw [hstack] at hframe
  simp only [List.nil_append] at hframe
  have helem : (specQueryElement kv).data
      = "\x7b\"Key\":\"".data ++ (kv.Key.data ++ ("\", \"Record\":".data
          ++ (kv.Value.data ++ "\x7d".data))) := by
    simp [specQueryElement, String.data_append]
  rw [helem, run_append, run_element_open m n hm, Option.some_bind,
    run_append, run_plain kv.Key.data _ false (n + 1) hkey, Option.some_bind,
    run_append, run_element_middle, Option.some_bind,
    run_append, hframe, Option.some_bind,
    run_close_object [.array] s1.mode (n + 1) hmode]

theorem run_pending (items : List KV) (n : Nat)
    (hkeys : ∀ kv ∈ items, ∀ c ∈ kv.Key.data, plain c = true)
    (hvalues : ∀ kv ∈ items, valid kv.Value = true) :
    run ⟨[.array], .done, n⟩ (pending true (items.map specQueryElement)).data
      = some ⟨[.array], .done, n + items.length⟩ := by
  induction items generalizing n with
  | nil => rfl
  | cons kv rest ih =>
    have hcomma : run ⟨[.array], .done, n⟩ ",".data = some ⟨[.array], .value, n⟩ := rfl
    have htext : (pending true (List.map specQueryElement (kv :: rest))).data
        = ",".data ++ ((specQueryElement kv).data
            ++ (pending true (List.map specQueryElement rest)).data) := by
      simp only [List.map_cons, pending, if_true, String.data_append, List.append_assoc]
    rw [htext, run_append, hcomma, Option.some_bind, run_append,
      run_queryElement kv .value n (Or.inr rfl) (hkeys kv (List.mem_cons_self kv rest))
        (hvalues kv (List.mem_cons_self kv rest)),
      Option.some_bind,
      ih (n + 1) (fun kv1 h1 => hkeys kv1 (List.mem_cons_of_mem kv h1))
        (fun kv1 h1 => hvalues kv1 (List.mem_cons_of_mem kv h1))]
    simp only [List.length_cons]
    congr 2
    omega

/-- The serialized query array of items with plain keys and valid records is
read by the recognizer to the end, with one element counted per item. -/
theorem run_queryArray (items : List KV)
    (hkeys : ∀ kv ∈ items, ∀ c ∈ kv.Key.data, plain c = true)
    (hvalues : ∀ kv ∈ items, valid kv.Value = true) :
    run start (specArray (items.map specQueryElement)).data
      = some ⟨[], .done, items.length⟩ := by
  have hopen : run start "[".data = some ⟨[.array], .arrayStart, 0⟩ := rfl
  cases items with
  | nil => rfl
  | cons kv rest =>
    have hclose : ∀ n, run ⟨[.array], .done, n⟩ "]".data = some ⟨[], .done, n⟩ := fun _ => rfl
    have htext : (specArray (List.map specQueryElement (kv :: rest))).data
        = "[".data ++ ((specQueryElement kv).data
            ++ ((pending true (List.map specQueryElement rest)).data ++ "]".data)) := by
      rw [specArray, List.map_cons, specJoin_cons]
      simp only [String.data_append, List.append_assoc]
    rw [htext, run_append, hopen, Option.some_bind, run_append,
      run_queryElement kv .arrayStart 0 (Or.inl rfl) (hkeys kv (List.mem_cons_self kv rest))
        (hvalues kv (List.mem_cons_self kv rest)),
      Option.some_bind, run_append,
      run_pending rest (0 + 1) (fun kv1 h1 => hkeys kv1 (List.mem_cons_of_mem kv h1))
        (fun kv1 h1 => hvalues kv1 (List.mem_cons_of_mem kv h1)),
      Option.some_bind, hclose]
    simp only [List.length_cons]
    congr 2
    omega

end JSON

/-! ## Well-formedness of the query array (C14) -/

/-- Where no key needs escaping (the keys hold no double quote, no backslash
and no control character) and the record values are each valid JSON, the
output of `getQueryResultForQueryString` is a valid JSON array with one element
per cursor item: the array is malformed through the unescaped key alone. -/
theorem getQueryResultForQueryString_wellformed (stub : Stub) (queryString : String)
    (items : List KV) (hopen : stub.queryResult queryString = .ok (items.map .ok))
    (hvalues : ∀ kv ∈ items, JSON.valid kv.Value = true)
    (hkeys : ∀ kv ∈ items, ∀ c ∈ kv.Key.data, JSON.plain c = true) :
    JSON.valid (getQueryResultForQueryString stub queryString).1.1 = true
      ∧ JSON.arrayLength (getQueryResultForQueryString stub queryString).1.1
          = some items.length := by
  rw [getQueryResultForQueryString_ok stub queryString items hopen]
  have hrun := JSON.run_queryArray items hkeys hvalues
  have hhead : ((specArray (items.map specQueryElement)).data.dropWhile
      JSON.isWhitespace).head?.map Char.toNat = some 91 := by
    have htext : (specArray (items.map specQueryElement)).data
        = "[".data ++ ((specJoin (items.map specQueryElement)).data ++ "]".data) := by
      simp only [specArray, String.data_append, List.append_assoc]
    rw [htext]
    rfl
  constructor
  · simp only [JSON.valid, hrun]
    rfl
  · simp only [JSON.arrayLength, hrun, hhead]
    rfl

theorem getQueryResultForQueryString_wellformed_witness :
    twoItemStub.queryResult "q" = .ok ([⟨"a", "1"⟩, ⟨"b", "\x7b\x7d"⟩].map .ok)
      ∧ (∀ kv ∈ [(⟨"a", "1"⟩ : KV), ⟨"b", "\x7b\x7d"⟩], JSON.valid kv.Value = true)
      ∧ (∀ kv ∈ [(⟨"a", "1"⟩ : KV), ⟨"b", "\x7b\x7d"⟩], ∀ c ∈ kv.Key.data,
          JSON.plain c = true)
      ∧ JSON.valid (getQueryResultForQueryString twoItemStub "q").1.1 = true
      ∧ JSON.arrayLength (getQueryResultForQueryString twoItemStub "q").1.1 = some 2 :=
  ⟨rfl, by decide, by decide,
    getQueryResultForQueryString_wellformed twoItemStub "q" [⟨"a", "1"⟩, ⟨"b", "\x7b\x7d"⟩]
      rfl (by decide) (by decide)⟩

/-- C14 (the code departs from the claim): lines 173-175 write the key between
two quotes without escaping it, although line 158 calls the buffer a JSON
array.  With the valid record 1 under a key holding a double quote, the output
is not valid JSON; with the valid record 2 under a key holding the text that
closes an element and opens the next, the output of one cursor item is a JSON
array of two elements. -/
theorem getQueryResultForQueryString_key_not_escaped :
    quoteKeyStub.queryResult "q" = .ok ([⟨"a\"b", "1"⟩].map .ok)
      ∧ JSON.valid "1" = true
      ∧ (getQueryResultForQueryString quoteKeyStub "q").1.1
          = "[\x7b\"Key\":\"a\"b\", \"Record\":1\x7d]"
      ∧ JSON.valid (getQueryResultForQueryString quoteKeyStub "q").1.1 = false
      ∧ splitKeyStub.queryResult "q"
          = .ok ([⟨"a\", \"Record\":1\x7d,\x7b\"Key\":\"b", "2"⟩].map .ok)
      ∧ JSON.valid "2" = true
      ∧ JSON.arrayLength (getQueryResultForQueryString splitKeyStub "q").1.1 = some 2 := by
  refine ⟨rfl, by decide, by decide, ?_, rfl, by decide, ?_⟩
  · set_option maxRecDepth 100000 in decide
  · set_option maxRecDepth 100000 in decide

/-! ## Lemmas on the record codec -/

namespace Codec

theorem run_concat (d : Decoder) (a b : List Char) :
    run d (a ++ b) = (run d a).bind fun d1 => run d1 b := by
  induction a generalizing d with
  | nil => rfl
  | cons c a ih =>
    simp only [List.cons_append, run]
    cases step d c with
    | none => rfl
    | some d1 => exact ih d1

theorem hexValue_hexDigit (n : Nat) (hn : n < 16) :
    ∃ c, (hexDigit n).data = [c] ∧ hexValue c = some n := by
  interval_cases n <;> exact ⟨_, rfl, by decide⟩

/-- The decoder reads the escape `\u00XY` as the character numbered 16 X + Y. -/
theorem run_hex_escape (ms : List (String × String)) (k : Option String) (acc : List Char)
    (hi lo : Nat) (hhi : hi < 4) (hlo : lo < 16) :
    run ⟨ms, .text k acc .plain⟩ ("\\u00" ++ hexDigit hi ++ hexDigit lo).data
      = some ⟨ms, .text k (Char.ofNat (hi * 16 + lo) :: acc) .plain⟩ := by
  obtain ⟨c1, hc1, hv1⟩ := hexValue_hexDigit hi (by omega)
  obtain ⟨c2, hc2, hv2⟩ := hexValue_hexDigit lo hlo
  have hopen : run ⟨ms, .text k acc .plain⟩ "\\u00".data
      = some ⟨ms, .text k acc (.hex 2 0)⟩ := rfl
  simp only [String.data_append, List.append_assoc, hc1, hc2]
  rw [run_concat, hopen, Option.some_bind]
  have hnot : ¬ (55296 ≤ hi * 16 + lo ∧ hi * 16 + lo ≤ 57343) := by omega
  simp [run, step, hv1, hv2, hnot]

theorem run_encodeChar (ms : List (String × String)) (k : Option String) (acc : List Char)
    (c : Char) :
    run ⟨ms, .text k acc .plain⟩ (encodeChar c).data
      = some ⟨ms, .text k (c :: acc) .plain⟩ := by
  have hc : ∀ n, c.toNat = n → Char.ofNat n = c := fun n h => by rw [← h, Char.ofNat_toNat]
  unfold encodeChar
  split_ifs with h34 h92 h10 h13 h9 hu h2028 h2029
  · rw [← hc 34 h34]; rfl
  · rw [← hc 92 h92]; rfl
  · rw [← hc 10 h10]; rfl
  · rw [← hc 13 h13]; rfl
  · rw [← hc 9 h9]; rfl
  · rw [run_hex_escape ms k acc (c.toNat / 16) (c.toNat % 16) (by omega) (by omega)]
    rw [Nat.div_add_mod', Char.ofNat_toNat]
  · rw [← hc 8232 h2028]; rfl
  · rw [← hc 8233 h2029]; rfl
  · have h32 : ¬ c.toNat < 32 := fun h => hu (Or.inl h)
    show run _ [c] = _
    simp [run, step, h34, h92, h32]

theorem run_encoded (ms : List (String × String)) (k : Option String) (cs acc : List Char) :
    run ⟨ms, .text k acc .plain⟩ ((cs.map encodeChar).map String.data).flatten
      = some ⟨ms, .text k (cs.reverse ++ acc) .plain⟩ := by
  induction cs generalizing acc with
  | nil => rfl
  | cons c cs ih =>
    simp only [List.map_cons, List.flatten_cons, List.reverse_cons, List.append_assoc,
      List.singleton_append]
    rw [run_concat, run_encodeChar, Option.some_bind, ih]

/-- The decoder reads an encoded string value back as the string. -/
theorem run_encodeString (ms : List (String × String)) (key value : String) :
    run ⟨ms, .value key⟩ (encodeString value).data = some ⟨(key, value) :: ms, .next⟩ := by
  have hopen : run ⟨ms, .value key⟩ "\"".data = some ⟨ms, .text (some key) [] .plain⟩ := rfl
  have hclose : ∀ acc, run ⟨ms, .text (some key) acc .plain⟩ "\"".data
      = some ⟨(key, String.mk acc.reverse) :: ms, .next⟩ := fun _ => rfl
  simp only [encodeString, String.data_append, String.data_join, List.append_assoc,
    String.toList]
  rw [run_concat, hopen, Option.some_bind, run_concat, run_encoded, Option.some_bind, hclose]
  simp

theorem decode_encode_user (u : User) : decode "User" (encode (.user u)) = .ok (.user u) := by
  have h1 : ∀ ms, run ⟨ms, .start⟩ "\x7b\"docType\":".data = some ⟨ms, .value "docType"⟩ :=
    fun _ => rfl
  have h2 : ∀ ms, run ⟨ms, .next⟩ ",\"id\":".data = some ⟨ms, .value "id"⟩ := fun _ => rfl
  have h3 : ∀ ms, run ⟨ms, .next⟩ ",\"firstName\":".data = some ⟨ms, .value "firstName"⟩ :=
    fun _ => rfl
  have h4 : ∀ ms, run ⟨ms, .next⟩ ",\"lastName\":".data = some ⟨ms, .value "lastName"⟩ :=
    fun _ => rfl
  have h5 : ∀ ms, run ⟨ms, .next⟩ ",\"email\":".data = some ⟨ms, .value "email"⟩ :=
    fun _ => rfl
  have h6 : ∀ ms, run ⟨ms, .next⟩ ",\"phoneNumber\":".data
      = some ⟨ms, .value "phoneNumber"⟩ := fun _ => rfl
  have h7 : ∀ ms, run ⟨ms, .next⟩ ",\"userType\":".data = some ⟨ms, .value "userType"⟩ :=
    fun _ => rfl
  have h8 : ∀ ms, run ⟨ms, .next⟩ ",\"dateOfRegistration\":".data
      = some ⟨ms, .value "dateOfRegistration"⟩ := fun _ => rfl
  have h9 : ∀ ms, run ⟨ms, .next⟩ "\x7d".data = some ⟨ms, .finished⟩ := fun _ => rfl
  have hmembers : readMembers (encode (.user u))
      = some [("docType", u.ObjectType), ("id", u.Id), ("firstName", u.FirstName),
          ("lastName", u.LastName), ("email", u.Email), ("phoneNumber", u.PhoneNumber),
          ("userType", u.UserType), ("dateOfRegistration", u.DateOfRegistration)] := by
    simp only [readMembers, encode, exampleMarshal, String.data_append, List.append_assoc]
    rw [run_concat, h1, Option.some_bind, run_concat, run_encodeString, Option.some_bind,
      run_concat, h2, Option.some_bind, run_concat, run_encodeString, Option.some_bind,
      run_concat, h3, Option.some_bind, run_concat, run_encodeString, Option.some_bind,
      run_concat, h4, Option.some_bind, run_concat, run_encodeString, Option.some_bind,
      run_concat, h5, Option.some_bind, run_concat, run_encodeString, Option.some_bind,
      run_concat, h6, Option.some_bind, run_concat, run_encodeString, Option.some_bind,
      run_concat, h7, Option.some_bind, run_concat, run_encodeString, Option.some_bind,
      run_concat, h8, Option.some_bind, run_concat, run_encodeString, Option.some_bind, h9]
    rfl
  simp only [decode, if_true, hmembers, List.foldl, setUser, String.reduceEq, if_false]

theorem decode_encode_activity (a : Activity) :
    decode "Activity" (encode (.activity a)) = .ok (.activity a) := by
  have h1 : ∀ ms, run ⟨ms, .start⟩ "\x7b\"docType\":".data = some ⟨ms, .value "docType"⟩ :=
    fun _ => rfl
  have h2 : ∀ ms, run ⟨ms, .next⟩ ",\"id\":".data = some ⟨ms, .value "id"⟩ := fun _ => rfl
  have h3 : ∀ ms, run ⟨ms, .next⟩ ",\"dateOfActivity\":".data
      = some ⟨ms, .value "dateOfActivity"⟩ := fun _ => rfl
  have h9 : ∀ ms, run ⟨ms, .next⟩ "\x7d".data = some ⟨ms, .finished⟩ := fun _ => rfl
  have hmembers : readMembers (encode (.activity a))
      = some [("docType", a.ObjectType), ("id", a.Id), ("dateOfActivity", a.DateOfActivity)] := by
    simp only [readMembers, encode, exampleMarshal, String.data_append, List.append_assoc]
    rw [run_concat, h1, Option.some_bind, run_concat, run_encodeString, Option.some_bind,
      run_concat, h2, Option.some_bind, run_concat, run_encodeString, Option.some_bind,
      run_concat, h3, Option.some_bind, run_concat, run_encodeString, Option.some_bind, h9]
    rfl
  have hkind : ("Activity" : String) ≠ "User" := by decide
  simp only [decode, hkind, if_false, if_true, hmembers, List.foldl, setActivity,
    String.reduceEq]

end Codec

/-! ## Round trip of the record codec (C16) -/

/-- C16: for each of the two record kinds and every record of that kind,
decoding the record's encoding with the same kind gives back the record:
`decode(kind, encode(kind, fields)) = fields`. -/
theorem decode_encode_roundtrip (u : User) (a : Activity) :
    Codec.decode "User" (Codec.encode (.user u)) = .ok (.user u)
      ∧ Codec.decode "Activity" (Codec.encode (.activity a)) = .ok (.activity a) :=
  ⟨Codec.decode_encode_user u, Codec.decode_encode_activity a⟩

end ExampleCC
